import Mathlib

/-!
Verification of the Thaasbai multiplayer game server core (src/server.py).

The server keeps five in-memory registries: `rooms` (Dhiha Ei rooms),
`digu_rooms` (Digu rooms), `player_sessions` (connection id -> room binding),
`matchmaking_queue` and `digu_matchmaking_queue` (FIFO queues), plus the
socket-room memberships maintained by the socketio layer and the
`match_timeouts` table of pending confirmation timers.

Python dictionaries are insertion-ordered, so every dict is embedded as an
association list (`List (key × value)`): assignment is `upsert` (update in
place if the key is present, append otherwise), `del` is `eraseA`, and
membership/indexing is `lookupA`.  The opaque `gameState` / `hands` payloads
the server stores and relays without interpreting are a type parameter `β`.
Randomness (room-code draws, `random.shuffle`) and wall-clock time are passed
in as explicit parameters.  Each socketio handler becomes a pure function
from a server state (plus its inputs) to the new server state and the list
of emitted events.
-/

set_option linter.unusedVariables false

namespace Thaasbai

/-- Room lifecycle status strings used by server.py. -/
inductive Status where
  | waiting
  | confirming
  | playing
deriving DecidableEq, Repr

/-- The two game types served ('dhihaei' and 'digu'). -/
inductive GameType where
  | dhihaei
  | digu
deriving DecidableEq, Repr

/-- A player slot inside a room's `players` dict.  The Python dicts for
normal joins have no 'confirmed' key; the code reads it with
`.get('confirmed', False)`, which the default value models. -/
structure PlayerSlot where
  oderId : String
  name : String
  ready : Bool
  connected : Bool
  confirmed : Bool := false
deriving DecidableEq, Repr

/-- A `player_sessions` entry.  Dhiha Ei sessions have no 'gameType' key and
the code reads it with `.get('gameType', 'dhihaei')`, which the default
models. -/
structure Session where
  roomId : String
  position : Nat
  gameType : GameType := GameType.dhihaei
deriving DecidableEq, Repr

/-- A matchmaking queue entry `{sid, name, joinedAt}`. -/
structure QueueEntry where
  sid : String
  name : String
  joinedAt : Nat
deriving DecidableEq, Repr

/-- A room: the `metadata` sub-dict is flattened into the structure.  Keys
that only some rooms carry (`isQuickMatch`, `confirmDeadline`, `maxPlayers`,
`gameType`) get option/default values; the code only reads them with `.get`
or after writing them.  A Digu room's `hands` starts as an empty dict and a
Dhiha Ei room's as `None`; both denote "no hands stored yet" and are both
embedded as `none`. -/
structure Room (β : Type) where
  host : String
  created : Nat
  status : Status
  playerCount : Nat
  isQuickMatch : Bool := false
  confirmDeadline : Option Nat := none
  maxPlayers : Option Nat := none
  gameTypeMeta : Option GameType := none
  players : List (Nat × PlayerSlot)
  gameState : Option β := none
  hands : Option β := none
  readyForRound : List (Nat × Bool) := []
deriving DecidableEq, Repr

/-- The whole mutable state of the server process. -/
structure ServerState (β : Type) where
  rooms : List (String × Room β) := []
  digu_rooms : List (String × Room β) := []
  player_sessions : List (String × Session) := []
  matchmaking_queue : List QueueEntry := []
  digu_matchmaking_queue : List QueueEntry := []
  socket_memberships : List (String × String) := []
  match_timeouts : List String := []
deriving DecidableEq, Repr

/-! ### Association lists as Python dicts

A Python dict (3.7+) is insertion-ordered and has unique keys.  `upsert`
mirrors `d[k] = v` (update in place, or append when absent), `eraseA` mirrors
`del d[k]`, `lookupA` mirrors `d[k]` / `k in d`. -/

/-- Dict lookup: first entry with the given key. -/
def lookupA {α β : Type} [DecidableEq α] : List (α × β) → α → Option β
  | [], _ => none
  | kv :: rest, k => if kv.1 = k then some kv.2 else lookupA rest k

/-- The key list of a dict. -/
def keysA {α β : Type} (l : List (α × β)) : List α := l.map Prod.fst

/-- Dict assignment `d[k] = v`: update in place when present (keeping the
insertion position, as Python does), append otherwise. -/
def upsert {α β : Type} [DecidableEq α] : List (α × β) → α → β → List (α × β)
  | [], k, v => [(k, v)]
  | kv :: rest, k, v =>
      if kv.1 = k then (k, v) :: rest else kv :: upsert rest k v

/-- Dict deletion `del d[k]` (every call site guards on membership first). -/
def eraseA {α β : Type} [DecidableEq α] (l : List (α × β)) (k : α) :
    List (α × β) :=
  l.filter (fun kv => !decide (kv.1 = k))

@[simp] theorem keysA_nil {α β : Type} : keysA ([] : List (α × β)) = [] := rfl

@[simp] theorem keysA_cons {α β : Type} (kv : α × β) (l : List (α × β)) :
    keysA (kv :: l) = kv.1 :: keysA l := rfl

@[simp] theorem lookupA_nil {α β : Type} [DecidableEq α] (k : α) :
    lookupA ([] : List (α × β)) k = none := rfl

@[simp] theorem lookupA_cons {α β : Type} [DecidableEq α] (kv : α × β)
    (l : List (α × β)) (k : α) :
    lookupA (kv :: l) k = if kv.1 = k then some kv.2 else lookupA l k := rfl

theorem keysA_upsert_of_mem {α β : Type} [DecidableEq α]
    (l : List (α × β)) (k : α) (v : β) (h : k ∈ keysA l) :
    keysA (upsert l k v) = keysA l := by
  induction l with
  | nil => simp at h
  | cons kv rest ih =>
    by_cases hk : kv.1 = k
    · simp [upsert, hk]
    · simp only [keysA_cons, List.mem_cons] at h
      rcases h with h | h
      · exact absurd h.symm hk
      · simp [upsert, hk, ih h]

theorem keysA_upsert_of_not_mem {α β : Type} [DecidableEq α]
    (l : List (α × β)) (k : α) (v : β) (h : k ∉ keysA l) :
    keysA (upsert l k v) = keysA l ++ [k] := by
  induction l with
  | nil => simp [upsert]
  | cons kv rest ih =>
    simp only [keysA_cons, List.mem_cons, not_or] at h
    have hk : kv.1 ≠ k := fun he => h.1 he.symm
    simp [upsert, hk, ih h.2]

theorem length_upsert_of_mem {α β : Type} [DecidableEq α]
    (l : List (α × β)) (k : α) (v : β) (h : k ∈ keysA l) :
    (upsert l k v).length = l.length := by
  induction l with
  | nil => simp at h
  | cons kv rest ih =>
    by_cases hk : kv.1 = k
    · simp [upsert, hk]
    · simp only [keysA_cons, List.mem_cons] at h
      rcases h with h | h
      · exact absurd h.symm hk
      · simp [upsert, hk, ih h]

theorem length_upsert_of_not_mem {α β : Type} [DecidableEq α]
    (l : List (α × β)) (k : α) (v : β) (h : k ∉ keysA l) :
    (upsert l k v).length = l.length + 1 := by
  induction l with
  | nil => simp [upsert]
  | cons kv rest ih =>
    simp only [keysA_cons, List.mem_cons, not_or] at h
    have hk : kv.1 ≠ k := fun he => h.1 he.symm
    simp [upsert, hk, ih h.2]

theorem nodup_keysA_upsert {α β : Type} [DecidableEq α]
    (l : List (α × β)) (k : α) (v : β) (h : (keysA l).Nodup) :
    (keysA (upsert l k v)).Nodup := by
  by_cases hk : k ∈ keysA l
  · rw [keysA_upsert_of_mem l k v hk]; exact h
  · rw [keysA_upsert_of_not_mem l k v hk]
    apply List.Nodup.append h (List.nodup_singleton k)
    intro a ha hb
    simp only [List.mem_singleton] at hb
    exact hk (hb ▸ ha)

theorem mem_upsert {α β : Type} [DecidableEq α]
    (l : List (α × β)) (k : α) (v : β) (kv : α × β) (h : kv ∈ upsert l k v) :
    kv = (k, v) ∨ kv ∈ l := by
  induction l with
  | nil => simp [upsert] at h; simp [h]
  | cons kv0 rest ih =>
    by_cases hk : kv0.1 = k
    · simp only [upsert, if_pos hk, List.mem_cons] at h
      rcases h with h | h
      · exact Or.inl h
      · exact Or.inr (List.mem_cons_of_mem kv0 h)
    · simp only [upsert, if_neg hk, List.mem_cons] at h
      rcases h with h | h
      · exact Or.inr (h ▸ List.mem_cons_self kv0 rest)
      · rcases ih h with h2 | h2
        · exact Or.inl h2
        · exact Or.inr (List.mem_cons_of_mem kv0 h2)

theorem mem_of_mem_eraseA {α β : Type} [DecidableEq α]
    (l : List (α × β)) (k : α) (kv : α × β) (h : kv ∈ eraseA l k) : kv ∈ l :=
  List.mem_of_mem_filter h

theorem keysA_eraseA_sublist {α β : Type} [DecidableEq α]
    (l : List (α × β)) (k : α) :
    List.Sublist (keysA (eraseA l k)) (keysA l) :=
  List.Sublist.map Prod.fst (List.filter_sublist l)

theorem nodup_keysA_eraseA {α β : Type} [DecidableEq α]
    (l : List (α × β)) (k : α) (h : (keysA l).Nodup) :
    (keysA (eraseA l k)).Nodup :=
  (keysA_eraseA_sublist l k).nodup h

theorem mem_keysA_eraseA {α β : Type} [DecidableEq α]
    (l : List (α × β)) (k a : α) (h : a ∈ keysA (eraseA l k)) : a ∈ keysA l :=
  (keysA_eraseA_sublist l k).mem h

theorem eraseA_cons {α β : Type} [DecidableEq α] (kv : α × β)
    (rest : List (α × β)) (k : α) :
    eraseA (kv :: rest) k =
      if kv.1 = k then eraseA rest k else kv :: eraseA rest k := by
  by_cases hk : kv.1 = k
  · simp [eraseA, List.filter_cons, hk]
  · simp [eraseA, List.filter_cons, hk]

theorem length_eraseA_of_mem {α β : Type} [DecidableEq α]
    (l : List (α × β)) (k : α) (hnd : (keysA l).Nodup) (h : k ∈ keysA l) :
    (eraseA l k).length + 1 = l.length := by
  induction l with
  | nil => simp at h
  | cons kv rest ih =>
    simp only [keysA_cons, List.nodup_cons] at hnd
    rw [eraseA_cons]
    by_cases hk : kv.1 = k
    · have hrest : k ∉ keysA rest := fun hm => hnd.1 (hk ▸ hm)
      have hall : eraseA rest k = rest := by
        apply List.filter_eq_self.mpr
        intro kv2 hkv2
        have hne : kv2.1 ≠ k :=
          fun hkk => hrest (hkk ▸ List.mem_map_of_mem Prod.fst hkv2)
        simp [hne]
      rw [if_pos hk, hall, List.length_cons]
    · simp only [keysA_cons, List.mem_cons] at h
      rcases h with h | h
      · exact absurd h.symm hk
      · have hlen := ih hnd.2 h
        rw [if_neg hk]
        simp only [List.length_cons]
        omega

theorem lookupA_eq_some_of_mem_keysA {α β : Type} [DecidableEq α]
    (l : List (α × β)) (k : α) (h : k ∈ keysA l) :
    ∃ v, lookupA l k = some v := by
  induction l with
  | nil => simp at h
  | cons kv rest ih =>
    by_cases hk : kv.1 = k
    · exact ⟨kv.2, by simp [hk]⟩
    · simp only [keysA_cons, List.mem_cons] at h
      rcases h with h | h
      · exact absurd h.symm hk
      · rcases ih h with ⟨v, hv⟩
        exact ⟨v, by simp [hk, hv]⟩

theorem mem_keysA_of_lookupA_eq_some {α β : Type} [DecidableEq α]
    (l : List (α × β)) (k : α) (v : β) (h : lookupA l k = some v) :
    k ∈ keysA l := by
  induction l with
  | nil => simp at h
  | cons kv rest ih =>
    simp only [lookupA_cons] at h
    by_cases hk : kv.1 = k
    · simp [hk]
    · simp only [if_neg hk] at h
      simp only [keysA_cons, List.mem_cons]
      exact Or.inr (ih h)

theorem lookupA_eq_none_of_not_mem_keysA {α β : Type} [DecidableEq α]
    (l : List (α × β)) (k : α) (h : k ∉ keysA l) : lookupA l k = none := by
  induction l with
  | nil => rfl
  | cons kv rest ih =>
    simp only [keysA_cons, List.mem_cons, not_or] at h
    have hk : kv.1 ≠ k := fun he => h.1 he.symm
    simp only [lookupA_cons, if_neg hk]
    exact ih h.2

theorem lookupA_upsert_self {α β : Type} [DecidableEq α]
    (l : List (α × β)) (k : α) (v : β) : lookupA (upsert l k v) k = some v := by
  induction l with
  | nil => simp [upsert]
  | cons kv rest ih =>
    by_cases hk : kv.1 = k
    · simp [upsert, hk]
    · simp [upsert, hk, ih]

theorem lookupA_upsert_ne {α β : Type} [DecidableEq α]
    (l : List (α × β)) (k k2 : α) (v : β) (h : k2 ≠ k) :
    lookupA (upsert l k v) k2 = lookupA l k2 := by
  induction l with
  | nil =>
    have hne : k ≠ k2 := fun he => h he.symm
    simp [upsert, hne]
  | cons kv rest ih =>
    by_cases hk : kv.1 = k
    · have hne : k ≠ k2 := fun he => h he.symm
      simp [upsert, hk, hne, ih]
    · simp only [upsert, if_neg hk, lookupA_cons]
      by_cases hk2 : kv.1 = k2
      · simp [hk2]
      · simp [hk2, ih]

theorem lookupA_eraseA_self {α β : Type} [DecidableEq α]
    (l : List (α × β)) (k : α) : lookupA (eraseA l k) k = none := by
  induction l with
  | nil => rfl
  | cons kv rest ih =>
    rw [eraseA_cons]
    by_cases hk : kv.1 = k
    · rw [if_pos hk]; exact ih
    · rw [if_neg hk, lookupA_cons, if_neg hk]; exact ih

theorem lookupA_eraseA_ne {α β : Type} [DecidableEq α]
    (l : List (α × β)) (k k2 : α) (h : k2 ≠ k) :
    lookupA (eraseA l k) k2 = lookupA l k2 := by
  induction l with
  | nil => rfl
  | cons kv rest ih =>
    rw [eraseA_cons]
    by_cases hk : kv.1 = k
    · have hne : kv.1 ≠ k2 := hk ▸ fun he => h he.symm
      rw [if_pos hk, lookupA_cons, if_neg hne]
      exact ih
    · rw [if_neg hk, lookupA_cons, lookupA_cons]
      by_cases hk2 : kv.1 = k2
      · simp [hk2]
      · simp [hk2, ih]

/-! ### Socket-room membership and timer-table helpers -/

/-- `flask_socketio.join_room(room, sid)`: add the membership pair. -/
def socketJoin (l : List (String × String)) (sid room_id : String) :
    List (String × String) :=
  if (sid, room_id) ∈ l then l else l ++ [(sid, room_id)]

/-- `flask_socketio.leave_room(room, sid)`: drop the membership pair. -/
def socketLeave (l : List (String × String)) (sid room_id : String) :
    List (String × String) :=
  l.filter (fun m => !decide (m = (sid, room_id)))

/-- `match_timeouts[room_id] = timer`: record a pending confirmation timer. -/
def timeoutAdd (l : List String) (room_id : String) : List String :=
  if room_id ∈ l then l else l ++ [room_id]

/-- `del match_timeouts[room_id]` / `timer.cancel()` bookkeeping. -/
def timeoutRemove (l : List String) (room_id : String) : List String :=
  l.filter (fun r => !decide (r = room_id))

/-! ### Emitted events

One constructor per socketio event the embedded handlers emit, carrying the
payload fields the Python code sends.  Events without a routing argument go
to the calling connection; `toSid` fields are `to=sid` emissions;
constructors carrying a `roomId` are room broadcasts (`players_changed` and
`digu_players_changed` also record the `include_self` flag, which the join
handlers set to `False`). -/

inductive Ev (β : Type) where
  | error (msg : String)
  | room_created (roomId : String) (position : Nat) (players : List (Nat × PlayerSlot))
  | room_joined (roomId : String) (position : Nat) (players : List (Nat × PlayerSlot))
  | players_changed (roomId : String) (includeSelf : Bool) (players : List (Nat × PlayerSlot))
  | player_left_game (roomId : String) (position : Nat) (playerName : String)
      (reason : String) (players : List (Nat × PlayerSlot))
  | left_room
  | position_changed (roomId : String) (fromPosition : Nat) (toPosition : Nat)
      (players : List (Nat × PlayerSlot))
  | game_started (roomId : String) (gameState : β) (hands : β)
      (players : List (Nat × PlayerSlot))
  | remote_card_played (roomId : String) (card : β) (position : Nat)
  | game_state_updated (roomId : String) (gameState : β)
  | round_started (roomId : String) (gameState : β) (hands : β)
  | all_ready_for_round (roomId : String)
  | match_found (toSid : String) (roomId : String) (position : Nat)
      (players : List (Nat × PlayerSlot)) (confirmTimeout : Nat)
  | match_timeout (toSid : String)
  | match_cancelled (toSid : String)
  | player_confirmed (roomId : String) (position : Nat) (players : List (Nat × PlayerSlot))
  | all_confirmed (roomId : String) (players : List (Nat × PlayerSlot))
  | queue_joined (playersInQueue : Nat) (playersNeeded : Nat)
  | queue_update (toSid : String) (playersInQueue : Nat) (playersNeeded : Int)
  | queue_left
  | digu_room_created (roomId : String) (position : Nat)
      (players : List (Nat × PlayerSlot)) (maxPlayers : Nat)
  | digu_room_joined (roomId : String) (position : Nat)
      (players : List (Nat × PlayerSlot)) (maxPlayers : Nat)
  | digu_players_changed (roomId : String) (includeSelf : Bool)
      (players : List (Nat × PlayerSlot))
  | digu_player_left (roomId : String) (position : Nat) (playerName : String)
      (reason : String) (players : List (Nat × PlayerSlot))
  | digu_left_room
  | digu_game_started (roomId : String) (gameState : β) (hands : β)
      (players : List (Nat × PlayerSlot))
  | digu_remote_card_drawn (roomId : String) (source : String) (card : β) (position : Nat)
  | digu_remote_card_discarded (roomId : String) (card : β) (position : Nat)
  | digu_remote_declare (roomId : String) (position : Nat) (melds : β) (isValid : Bool)
  | digu_state_updated (roomId : String) (gameState : β)
  | digu_remote_game_over (roomId : String) (results : β) (declaredBy : Nat)
  | digu_match_started (roomId : String) (gameState : β) (hands : β)
  | digu_match_found (toSid : String) (roomId : String) (position : Nat)
      (players : List (Nat × PlayerSlot))
  | digu_queue_joined (playersInQueue : Nat) (playersNeeded : Nat)
  | digu_queue_update (toSid : String) (playersInQueue : Nat) (playersNeeded : Int)
  | digu_queue_left
deriving DecidableEq, Repr

/-! ### Room code generation (server.py lines 124-130)

`random.choice(chars)` draws are passed in as an explicit supply: one
`Fin 6 → Fin 32` function per loop iteration (six draws build one candidate
code).  The Python loop runs until a candidate is not a key of `rooms`; with
a finite supply the generator returns `none` when the supply is exhausted. -/

/-- The fixed 32-character alphabet (no 0, O, 1, I). -/
def roomCodeChars : List Char := "ABCDEFGHJKLMNPQRSTUVWXYZ23456789".toList

theorem roomCodeChars_length : roomCodeChars.length = 32 := rfl

/-- Build one 6-character candidate code from six draws. -/
def codeOfDraw (d : Fin 6 → Fin 32) : String :=
  String.mk ((List.finRange 6).map
    (fun i => roomCodeChars.get (Fin.cast roomCodeChars_length.symm (d i))))

/-- `generate_room_code`: retry until the candidate is not an existing key of
the Dhiha Ei `rooms` dict (the only store the Python function consults). -/
def generate_room_code (existing : List String) :
    List (Fin 6 → Fin 32) → Option String
  | [] => none
  | d :: rest =>
      let code := codeOfDraw d
      if code ∈ existing then generate_room_code existing rest else some code

/-! ### Dhiha Ei room handlers -/

/-- `handle_create_room` (server.py lines 775-814).  The generated room code
is passed in as `room_id`. -/
def handle_create_room {β : Type} (st : ServerState β) (sid : String)
    (player_name : String) (now : Nat) (room_id : String) :
    ServerState β × List (Ev β) :=
  let room : Room β := {
    host := sid
    created := now
    status := Status.waiting
    playerCount := 1
    players := [(0, { oderId := sid, name := player_name, ready := false,
                      connected := true })]
    gameState := none
    hands := none }
  ({ st with
      rooms := upsert st.rooms room_id room
      player_sessions := upsert st.player_sessions sid
        { roomId := room_id, position := 0 }
      socket_memberships := socketJoin st.socket_memberships sid room_id },
   [Ev.room_created room_id 0 room.players])

/-- Python's `.upper().strip()` normalization of a submitted room id,
modeled on the character list (uppercase every character, then drop
whitespace from both ends).  Room codes are ASCII, where `Char.toUpper`
agrees with Python's `str.upper`. -/
def normalizeRoomId (s : String) : String :=
  String.mk ((((s.data.map Char.toUpper).dropWhile Char.isWhitespace).reverse.dropWhile
    Char.isWhitespace).reverse)

/-- `handle_join_room` (server.py lines 816-869).  The raw room id is
normalized with `.upper().strip()`; any room whose status is not `waiting`
is rejected with 'Game already in progress'; otherwise the joiner gets the
lowest free position below 4 or a 'Room is full' error. -/
def handle_join_room {β : Type} (st : ServerState β) (sid : String)
    (roomIdRaw : String) (player_name : String) : ServerState β × List (Ev β) :=
  let room_id := normalizeRoomId roomIdRaw
  match lookupA st.rooms room_id with
  | none => (st, [Ev.error "Room not found"])
  | some room =>
    if room.status ≠ Status.waiting then
      (st, [Ev.error "Game already in progress"])
    else
      match (List.range 4).find? (fun i => decide (i ∉ keysA room.players)) with
      | none => (st, [Ev.error "Room is full"])
      | some position =>
        let players2 := upsert room.players position
          { oderId := sid, name := player_name, ready := false, connected := true }
        let room2 := { room with players := players2, playerCount := players2.length }
        ({ st with
            rooms := upsert st.rooms room_id room2
            player_sessions := upsert st.player_sessions sid
              { roomId := room_id, position := position }
            socket_memberships := socketJoin st.socket_memberships sid room_id },
         [Ev.room_joined room_id position players2,
          Ev.players_changed room_id false players2])

/-- `handle_leave_room` (server.py lines 871-914).  Note that the slot is
deleted and `playerCount` recomputed in every status, `playing` included;
the `playing` case only changes which event is broadcast. -/
def handle_leave_room {β : Type} (st : ServerState β) (sid : String) :
    ServerState β × List (Ev β) :=
  match lookupA st.player_sessions sid with
  | none => (st, [])
  | some session =>
    let room_id := session.roomId
    let position := session.position
    let stEv : ServerState β × List (Ev β) :=
      match lookupA st.rooms room_id with
      | none => (st, [])
      | some room =>
        match lookupA room.players position with
        | none =>
          ({ st with socket_memberships := socketLeave st.socket_memberships sid room_id },
           [])
        | some pl =>
          let is_playing := room.status = Status.playing
          let players2 := eraseA room.players position
          let room2 := { room with players := players2, playerCount := players2.length }
          let socks2 := socketLeave st.socket_memberships sid room_id
          if players2.length = 0 then
            ({ st with rooms := eraseA st.rooms room_id, socket_memberships := socks2 },
             [])
          else if is_playing then
            ({ st with rooms := upsert st.rooms room_id room2, socket_memberships := socks2 },
             [Ev.player_left_game room_id position pl.name "left" players2])
          else
            ({ st with rooms := upsert st.rooms room_id room2, socket_memberships := socks2 },
             [Ev.players_changed room_id true players2])
    ({ stEv.1 with player_sessions := eraseA stEv.1.player_sessions sid },
     stEv.2 ++ [Ev.left_room])

/-- `handle_set_ready` (server.py lines 916-930). -/
def handle_set_ready {β : Type} (st : ServerState β) (sid : String)
    (ready : Bool) : ServerState β × List (Ev β) :=
  match lookupA st.player_sessions sid with
  | none => (st, [])
  | some session =>
    match lookupA st.rooms session.roomId with
    | none => (st, [])
    | some room =>
      match lookupA room.players session.position with
      | none => (st, [])
      | some pl =>
        let players2 := upsert room.players session.position { pl with ready := ready }
        let room2 := { room with players := players2 }
        ({ st with rooms := upsert st.rooms session.roomId room2 },
         [Ev.players_changed session.roomId true players2])

/-- The session-rebinding loop of the move branch of `handle_swap_player`
(server.py lines 978-982): update the first session bound to
(`room_id`, `fromPos`) and stop (the Python loop breaks). -/
def updateFirstSession : List (String × Session) → String → Nat → Nat →
    List (String × Session)
  | [], _, _, _ => []
  | (k, s) :: rest, room_id, fromPos, toPos =>
    if s.roomId = room_id ∧ s.position = fromPos then
      (k, { s with position := toPos }) :: rest
    else
      (k, s) :: updateFirstSession rest room_id fromPos toPos

/-- The per-session update of the exchange branch of `handle_swap_player`
(server.py lines 992-997): a session bound to the room at either position
is rebound to the other. -/
def swapSessionVal (room_id : String) (p1 p2 : Nat) (s : Session) : Session :=
  if s.roomId = room_id then
    if s.position = p1 then { s with position := p2 }
    else if s.position = p2 then { s with position := p1 }
    else s
  else s

/-- The session-rebinding loop of the exchange branch of
`handle_swap_player` (server.py lines 991-997). -/
def swapSessions (l : List (String × Session)) (room_id : String)
    (p1 p2 : Nat) : List (String × Session) :=
  l.map (fun ks => (ks.1, swapSessionVal room_id p1 p2 ks.2))

/-- The opposite team's two position slots (server.py lines 958-962):
positions 0 and 2 are Team A, 1 and 3 Team B. -/
def swapTargets (from_position : Nat) : List Nat :=
  if from_position = 0 ∨ from_position = 2 then [1, 3] else [0, 2]

/-- `handle_swap_player` (server.py lines 932-1006).  Host-only team
reassignment: move the occupant of `from_position` to the first empty slot
of the opposite team, or exchange with the occupant of the opposite team's
first (lowest-index) slot when both are occupied. -/
def handle_swap_player {β : Type} (st : ServerState β) (sid : String)
    (from_position : Nat) : ServerState β × List (Ev β) :=
  match lookupA st.player_sessions sid with
  | none => (st, [])
  | some session =>
    if session.position ≠ 0 then
      (st, [Ev.error "Only host can assign teams"])
    else
      match lookupA st.rooms session.roomId with
      | none => (st, [])
      | some room =>
        let room_id := session.roomId
        match lookupA room.players from_position with
        | none => (st, [Ev.error "No player in that position"])
        | some player_to_move =>
          let target_positions := swapTargets from_position
          match target_positions.find? (fun pos => decide (pos ∉ keysA room.players)) with
          | some target_position =>
            let players2 := eraseA (upsert room.players target_position player_to_move)
              from_position
            let sessions2 := updateFirstSession st.player_sessions room_id
              from_position target_position
            ({ st with
                rooms := upsert st.rooms room_id { room with players := players2 }
                player_sessions := sessions2 },
             [Ev.players_changed room_id true players2,
              Ev.position_changed room_id from_position target_position players2])
          | none =>
            let target_position := target_positions.headD 0
            match lookupA room.players target_position with
            | none => (st, [])
            | some player_to_swap =>
              let players2 := upsert (upsert room.players target_position player_to_move)
                from_position player_to_swap
              let sessions2 := swapSessions st.player_sessions room_id
                from_position target_position
              ({ st with
                  rooms := upsert st.rooms room_id { room with players := players2 }
                  player_sessions := sessions2 },
               [Ev.players_changed room_id true players2,
                Ev.position_changed room_id from_position target_position players2])

/-- `handle_start_game` (server.py lines 1008-1049).  Host-only; requires
exactly 4 occupied slots all ready; note that it never inspects the room's
current status. -/
def handle_start_game {β : Type} (st : ServerState β) (sid : String)
    (gameState : β) (hands : β) : ServerState β × List (Ev β) :=
  match lookupA st.player_sessions sid with
  | none => (st, [])
  | some session =>
    if session.position ≠ 0 then
      (st, [Ev.error "Only host can start the game"])
    else
      match lookupA st.rooms session.roomId with
      | none => (st, [])
      | some room =>
        if room.players.length ≠ 4 then
          (st, [Ev.error "Need 4 players to start"])
        else if !(room.players.all (fun pp => pp.2.ready)) then
          (st, [Ev.error "All players must be ready"])
        else
          let room2 := { room with
            status := Status.playing
            gameState := some gameState
            hands := some hands }
          ({ st with rooms := upsert st.rooms session.roomId room2 },
           [Ev.game_started session.roomId gameState hands room.players])

/-- `handle_card_played` (server.py lines 1051-1070): pure relay. -/
def handle_card_played {β : Type} (st : ServerState β) (sid : String)
    (card : β) : ServerState β × List (Ev β) :=
  match lookupA st.player_sessions sid with
  | none => (st, [])
  | some session =>
    (st, [Ev.remote_card_played session.roomId card session.position])

/-- `handle_update_game_state` (server.py lines 1072-1087). -/
def handle_update_game_state {β : Type} (st : ServerState β) (sid : String)
    (gameState : β) : ServerState β × List (Ev β) :=
  match lookupA st.player_sessions sid with
  | none => (st, [])
  | some session =>
    match lookupA st.rooms session.roomId with
    | none => (st, [])
    | some room =>
      let room2 := { room with gameState := some gameState }
      ({ st with rooms := upsert st.rooms session.roomId room2 },
       [Ev.game_state_updated session.roomId gameState])

/-- `handle_new_round` (server.py lines 1089-1112): host-only snapshot. -/
def handle_new_round {β : Type} (st : ServerState β) (sid : String)
    (gameState : β) (hands : β) : ServerState β × List (Ev β) :=
  match lookupA st.player_sessions sid with
  | none => (st, [])
  | some session =>
    if session.position ≠ 0 then (st, [])
    else
      match lookupA st.rooms session.roomId with
      | none => (st, [])
      | some room =>
        let room2 := { room with gameState := some gameState, hands := some hands }
        ({ st with rooms := upsert st.rooms session.roomId room2 },
         [Ev.round_started session.roomId gameState hands])

/-- `handle_ready_for_round` (server.py lines 1114-1147): rendezvous
barrier on the `readyForRound` dict. -/
def handle_ready_for_round {β : Type} (st : ServerState β) (sid : String) :
    ServerState β × List (Ev β) :=
  match lookupA st.player_sessions sid with
  | none => (st, [])
  | some session =>
    match lookupA st.rooms session.roomId with
    | none => (st, [])
    | some room =>
      let rfr := upsert room.readyForRound session.position true
      let ready_count := (rfr.filter (fun pb => pb.2)).length
      if ready_count ≥ 4 then
        let room2 := { room with readyForRound := ([] : List (Nat × Bool)) }
        ({ st with rooms := upsert st.rooms session.roomId room2 },
         [Ev.all_ready_for_round session.roomId])
      else
        let room2 := { room with readyForRound := rfr }
        ({ st with rooms := upsert st.rooms session.roomId room2 },
         [])

/-! ### Matchmaking / quick match (Dhiha Ei) -/

/-- `remove_from_queue` (server.py lines 1153-1156). -/
def remove_from_queue (q : List QueueEntry) (sid : String) : List QueueEntry :=
  q.filter (fun p => !decide (p.sid = sid))

/-- `broadcast_queue_status` (server.py lines 1341-1348): one `queue_update`
per queued connection.  `playersNeeded` is computed as `4 - count` with no
clamping, hence the `Int`. -/
def queue_status_events {β : Type} (q : List QueueEntry) : List (Ev β) :=
  q.map (fun p => Ev.queue_update p.sid q.length ((4 : Int) - q.length))

/-- Placeholder used only for `match_players[0]` below; with at least 4
queued entries it is never the actual result. -/
def dummyQueueEntry : QueueEntry := { sid := "", name := "", joinedAt := 0 }

/-- The slot dict built for each matched player in `check_and_start_match`
(server.py lines 1193-1199): not ready, awaiting confirmation. -/
def formationSlot (e : QueueEntry) : PlayerSlot :=
  { oderId := e.sid, name := e.name, ready := false, connected := true,
    confirmed := false }

/-- `check_and_start_match` (server.py lines 1161-1282, minus the timer
closure, which is `handle_confirmation_timeout` below).  The generated room
code and the result of `random.shuffle([0, 1, 2, 3])` are passed in as
`room_id` and `positions`.  The `match_found` position is read back from
`player_sessions`, exactly as the Python code does. -/
def check_and_start_match {β : Type} (st : ServerState β) (now : Nat)
    (room_id : String) (positions : List Nat) : ServerState β × List (Ev β) :=
  if st.matchmaking_queue.length ≥ 4 then
    let match_players := st.matchmaking_queue.take 4
    let queue2 := st.matchmaking_queue.drop 4
    let assigned := match_players.zip positions
    let players2 := assigned.foldl (fun m ep => upsert m ep.2 (formationSlot ep.1))
      ([] : List (Nat × PlayerSlot))
    let room1 : Room β := {
      host := (match_players.headD dummyQueueEntry).sid
      created := now
      status := Status.confirming
      playerCount := 4
      isQuickMatch := true
      confirmDeadline := some (now + 30)
      players := players2
      gameState := none
      hands := none }
    let sessions2 := assigned.foldl
      (fun s ep => upsert s ep.1.sid { roomId := room_id, position := ep.2 })
      st.player_sessions
    let socks2 := assigned.foldl (fun s ep => socketJoin s ep.1.sid room_id)
      st.socket_memberships
    let st1 := { st with
      matchmaking_queue := queue2
      rooms := upsert st.rooms room_id room1
      player_sessions := sessions2
      socket_memberships := socks2
      match_timeouts := timeoutAdd st.match_timeouts room_id }
    let evs := match_players.map (fun p =>
      Ev.match_found p.sid room_id
        (match lookupA sessions2 p.sid with
         | some sess => sess.position
         | none => 0)
        players2 30)
    (st1, evs)
  else (st, [])

/-- The eviction loop for unconfirmed players in the confirmation-timeout
callback (server.py lines 1239-1246): per player, unbind the session and
leave the socket room (the `match_timeout` notices are collected
separately, as they depend only on the captured slot list). -/
def timeout_evict {β : Type} (st : ServerState β) (room_id : String)
    (pps : List (Nat × PlayerSlot)) : ServerState β :=
  pps.foldl (fun s pp =>
    { s with
        player_sessions := eraseA s.player_sessions pp.2.oderId
        socket_memberships := socketLeave s.socket_memberships pp.2.oderId room_id })
    st

/-- The requeue loop for confirmed players in the confirmation-timeout
callback (server.py lines 1249-1262): unbind, leave the socket room, and
append a fresh queue entry with the player's name and `joinedAt = now`. -/
def timeout_requeue {β : Type} (st : ServerState β) (room_id : String)
    (now : Nat) (pps : List (Nat × PlayerSlot)) : ServerState β :=
  pps.foldl (fun s pp =>
    { s with
        player_sessions := eraseA s.player_sessions pp.2.oderId
        socket_memberships := socketLeave s.socket_memberships pp.2.oderId room_id
        matchmaking_queue := s.matchmaking_queue ++
          [{ sid := pp.2.oderId, name := pp.2.name, joinedAt := now }] })
    st

/-- The recovery part of the confirmation-timeout callback (server.py lines
1228-1266): evict the unconfirmed, requeue the confirmed at the queue tail,
delete the room. -/
def timeout_recover {β : Type} (st : ServerState β) (room_id : String)
    (now : Nat) (room : Room β) : ServerState β :=
  let unconfirmed := room.players.filter (fun pp => !pp.2.confirmed)
  let confirmed := room.players.filter (fun pp => pp.2.confirmed)
  let st2 := timeout_requeue (timeout_evict st room_id unconfirmed) room_id
    now confirmed
  { st2 with rooms := eraseA st2.rooms room_id }

/-- `handle_confirmation_timeout` (server.py lines 1223-1274): the
30-second timer callback captured over `room_id`.  Guarded on the room
still existing in `confirming` status; then unconfirmed players are
evicted, confirmed players requeued at the tail, the room deleted, queue
status broadcast and match formation retried (the retry needs a fresh room
code and shuffle, passed as `retry_room_id` / `retry_positions`).  The
timer-table entry is dropped at the end in every case. -/
def handle_confirmation_timeout {β : Type} (st : ServerState β)
    (room_id : String) (now : Nat) (retry_room_id : String)
    (retry_positions : List Nat) : ServerState β × List (Ev β) :=
  match lookupA st.rooms room_id with
  | none => ({ st with match_timeouts := timeoutRemove st.match_timeouts room_id }, [])
  | some room =>
    if room.status = Status.confirming then
      let unconfirmed := room.players.filter (fun pp => !pp.2.confirmed)
      let confirmed := room.players.filter (fun pp => pp.2.confirmed)
      let st3 := timeout_recover st room_id now room
      let evs1 : List (Ev β) :=
        unconfirmed.map (fun pp => Ev.match_timeout pp.2.oderId) ++
        confirmed.map (fun pp => Ev.match_cancelled pp.2.oderId)
      let evsQ : List (Ev β) := queue_status_events st3.matchmaking_queue
      let res := check_and_start_match st3 now retry_room_id retry_positions
      ({ res.1 with match_timeouts := timeoutRemove res.1.match_timeouts room_id },
       evs1 ++ evsQ ++ res.2)
    else
      ({ st with match_timeouts := timeoutRemove st.match_timeouts room_id }, [])

/-- `handle_confirm_match` (server.py lines 1284-1339). -/
def handle_confirm_match {β : Type} (st : ServerState β) (sid : String) :
    ServerState β × List (Ev β) :=
  match lookupA st.player_sessions sid with
  | none => (st, [Ev.error "Not in a match"])
  | some session =>
    match lookupA st.rooms session.roomId with
    | none => (st, [Ev.error "Match not found"])
    | some room =>
      if room.isQuickMatch = false ∨ room.status ≠ Status.confirming then
        (st, [Ev.error "Not in confirmation phase"])
      else
        match lookupA room.players session.position with
        | none => (st, [])
        | some pl =>
          let players2 := upsert room.players session.position
            { pl with confirmed := true, ready := true }
          let all_confirmed := players2.all (fun pp => pp.2.confirmed)
          if all_confirmed then
            let room3 := { room with players := players2, status := Status.waiting }
            ({ st with
                rooms := upsert st.rooms session.roomId room3
                match_timeouts := timeoutRemove st.match_timeouts session.roomId },
             [Ev.player_confirmed session.roomId session.position players2,
              Ev.all_confirmed session.roomId players2])
          else
            let room2 := { room with players := players2 }
            ({ st with rooms := upsert st.rooms session.roomId room2 },
             [Ev.player_confirmed session.roomId session.position players2])

/-- `handle_join_queue` (server.py lines 1350-1381).  The caller is first
removed from the queue (rejoin), then rejected if it has a session; the
final `check_and_start_match` call gets the code/shuffle supply. -/
def handle_join_queue {β : Type} (st : ServerState β) (sid : String)
    (player_name : String) (now : Nat) (room_id : String)
    (positions : List Nat) : ServerState β × List (Ev β) :=
  let st1 := { st with
    matchmaking_queue := remove_from_queue st.matchmaking_queue sid }
  if (lookupA st1.player_sessions sid).isSome then
    (st1, [Ev.error "Already in a room. Leave first."])
  else
    let q2 := st1.matchmaking_queue ++
      [{ sid := sid, name := player_name, joinedAt := now }]
    let st2 := { st1 with matchmaking_queue := q2 }
    let evs1 : List (Ev β) := [Ev.queue_joined q2.length (4 - q2.length)]
    let evsQ : List (Ev β) := queue_status_events q2
    let res := check_and_start_match st2 now room_id positions
    (res.1, evs1 ++ evsQ ++ res.2)

/-- `handle_leave_queue` (server.py lines 1383-1393). -/
def handle_leave_queue {β : Type} (st : ServerState β) (sid : String) :
    ServerState β × List (Ev β) :=
  let was_in_queue := st.matchmaking_queue.any (fun p => decide (p.sid = sid))
  let st1 := { st with
    matchmaking_queue := remove_from_queue st.matchmaking_queue sid }
  if was_in_queue then
    (st1, Ev.queue_left :: (queue_status_events st1.matchmaking_queue : List (Ev β)))
  else (st1, [])

/-! ### Disconnect (server.py lines 680-773) -/

/-- `remove_from_digu_queue` (server.py lines 1801-1804). -/
def remove_from_digu_queue (q : List QueueEntry) (sid : String) : List QueueEntry :=
  q.filter (fun p => !decide (p.sid = sid))

/-- `broadcast_digu_queue_status` (server.py lines 1806-1813). -/
def digu_queue_status_events {β : Type} (q : List QueueEntry) : List (Ev β) :=
  q.map (fun p => Ev.digu_queue_update p.sid q.length ((4 : Int) - q.length))

/-- The Dhiha Ei room-cleanup block of `handle_disconnect` (server.py lines
744-771): during `playing` the slot is kept and marked `connected:false`;
otherwise it is removed, `playerCount` recomputed, and an empty room
deleted. -/
def disconnect_cleanup_dhihaei {β : Type} (st : ServerState β)
    (room_id : String) (position : Nat) : ServerState β × List (Ev β) :=
  match lookupA st.rooms room_id with
  | none => (st, [])
  | some room =>
    match lookupA room.players position with
    | none => (st, [])
    | some pl =>
      if room.status = Status.playing then
        let players2 := upsert room.players position { pl with connected := false }
        let room2 := { room with players := players2 }
        ({ st with rooms := upsert st.rooms room_id room2 },
         [Ev.player_left_game room_id position pl.name "disconnected" players2])
      else
        let players2 := eraseA room.players position
        if players2.length = 0 then
          ({ st with rooms := eraseA st.rooms room_id }, [])
        else
          let room2 := { room with players := players2, playerCount := players2.length }
          ({ st with rooms := upsert st.rooms room_id room2 },
           [Ev.players_changed room_id true players2])

/-- The Digu room-cleanup block of `handle_disconnect` (server.py lines
718-741), identical in shape to the Dhiha Ei one. -/
def disconnect_cleanup_digu {β : Type} (st : ServerState β)
    (room_id : String) (position : Nat) : ServerState β × List (Ev β) :=
  match lookupA st.digu_rooms room_id with
  | none => (st, [])
  | some room =>
    match lookupA room.players position with
    | none => (st, [])
    | some pl =>
      if room.status = Status.playing then
        let players2 := upsert room.players position { pl with connected := false }
        let room2 := { room with players := players2 }
        ({ st with digu_rooms := upsert st.digu_rooms room_id room2 },
         [Ev.digu_player_left room_id position pl.name "disconnected" players2])
      else
        let players2 := eraseA room.players position
        if players2.length = 0 then
          ({ st with digu_rooms := eraseA st.digu_rooms room_id }, [])
        else
          let room2 := { room with players := players2, playerCount := players2.length }
          ({ st with digu_rooms := upsert st.digu_rooms room_id room2 },
           [Ev.digu_players_changed room_id true players2])

/-- `handle_disconnect` (server.py lines 680-773): drop the connection from
both matchmaking queues (broadcasting updates when it was queued), then
clean up its room by game type and delete its session. -/
def handle_disconnect {β : Type} (st : ServerState β) (sid : String) :
    ServerState β × List (Ev β) :=
  let was_in_queue := st.matchmaking_queue.any (fun p => decide (p.sid = sid))
  let q1 := remove_from_queue st.matchmaking_queue sid
  let evs1 : List (Ev β) := if was_in_queue then queue_status_events q1 else []
  let was_in_digu_queue := st.digu_matchmaking_queue.any (fun p => decide (p.sid = sid))
  let dq1 := remove_from_digu_queue st.digu_matchmaking_queue sid
  let evs2 : List (Ev β) := if was_in_digu_queue then digu_queue_status_events dq1 else []
  let st1 := { st with matchmaking_queue := q1, digu_matchmaking_queue := dq1 }
  match lookupA st1.player_sessions sid with
  | none => (st1, evs1 ++ evs2)
  | some session =>
    let res :=
      if session.gameType = GameType.digu ∧ (lookupA st1.digu_rooms session.roomId).isSome then
        disconnect_cleanup_digu st1 session.roomId session.position
      else if (lookupA st1.rooms session.roomId).isSome then
        disconnect_cleanup_dhihaei st1 session.roomId session.position
      else (st1, [])
    ({ res.1 with player_sessions := eraseA res.1.player_sessions sid },
     evs1 ++ evs2 ++ res.2)

/-! ### Digu room handlers (server.py lines 1415-1795) -/

/-- `handle_create_digu_room` (server.py lines 1415-1464).  Note that the
room code comes from `generate_room_code`, which only consults the Dhiha Ei
`rooms` dict. -/
def handle_create_digu_room {β : Type} (st : ServerState β) (sid : String)
    (player_name : String) (maxPlayersReq : Nat) (now : Nat)
    (room_id : String) : ServerState β × List (Ev β) :=
  let max_players := if maxPlayersReq < 2 ∨ maxPlayersReq > 4 then 4 else maxPlayersReq
  let room : Room β := {
    host := sid
    created := now
    status := Status.waiting
    playerCount := 1
    maxPlayers := some max_players
    gameTypeMeta := some GameType.digu
    players := [(0, { oderId := sid, name := player_name, ready := false,
                      connected := true })]
    gameState := none
    hands := none }
  ({ st with
      digu_rooms := upsert st.digu_rooms room_id room
      player_sessions := upsert st.player_sessions sid
        { roomId := room_id, position := 0, gameType := GameType.digu }
      socket_memberships := socketJoin st.socket_memberships sid room_id },
   [Ev.digu_room_created room_id 0 room.players max_players])

/-- `handle_join_digu_room` (server.py lines 1466-1524). -/
def handle_join_digu_room {β : Type} (st : ServerState β) (sid : String)
    (roomIdRaw : String) (player_name : String) : ServerState β × List (Ev β) :=
  let room_id := normalizeRoomId roomIdRaw
  match lookupA st.digu_rooms room_id with
  | none => (st, [Ev.error "Room not found"])
  | some room =>
    if room.status ≠ Status.waiting then
      (st, [Ev.error "Game already in progress"])
    else
      let max_players := room.maxPlayers.getD 4
      match (List.range max_players).find? (fun i => decide (i ∉ keysA room.players)) with
      | none => (st, [Ev.error "Room is full"])
      | some position =>
        let players2 := upsert room.players position
          { oderId := sid, name := player_name, ready := false, connected := true }
        let room2 := { room with players := players2, playerCount := players2.length }
        ({ st with
            digu_rooms := upsert st.digu_rooms room_id room2
            player_sessions := upsert st.player_sessions sid
              { roomId := room_id, position := position, gameType := GameType.digu }
            socket_memberships := socketJoin st.socket_memberships sid room_id },
         [Ev.digu_room_joined room_id position players2 max_players,
          Ev.digu_players_changed room_id false players2])

/-- `handle_leave_digu_room` (server.py lines 1526-1573). -/
def handle_leave_digu_room {β : Type} (st : ServerState β) (sid : String) :
    ServerState β × List (Ev β) :=
  match lookupA st.player_sessions sid with
  | none => (st, [])
  | some session =>
    if session.gameType ≠ GameType.digu then (st, [])
    else
      let room_id := session.roomId
      let position := session.position
      let stEv : ServerState β × List (Ev β) :=
        match lookupA st.digu_rooms room_id with
        | none => (st, [])
        | some room =>
          match lookupA room.players position with
          | none =>
            ({ st with socket_memberships := socketLeave st.socket_memberships sid room_id },
             [])
          | some pl =>
            let is_playing := room.status = Status.playing
            let players2 := eraseA room.players position
            let room2 := { room with players := players2, playerCount := players2.length }
            let socks2 := socketLeave st.socket_memberships sid room_id
            if players2.length = 0 then
              ({ st with
                  digu_rooms := eraseA st.digu_rooms room_id
                  socket_memberships := socks2 },
               [])
            else if is_playing then
              ({ st with
                  digu_rooms := upsert st.digu_rooms room_id room2
                  socket_memberships := socks2 },
               [Ev.digu_player_left room_id position pl.name "left" players2])
            else
              ({ st with
                  digu_rooms := upsert st.digu_rooms room_id room2
                  socket_memberships := socks2 },
               [Ev.digu_players_changed room_id true players2])
      ({ stEv.1 with player_sessions := eraseA stEv.1.player_sessions sid },
       stEv.2 ++ [Ev.digu_left_room])

/-- `handle_digu_set_ready` (server.py lines 1575-1593). -/
def handle_digu_set_ready {β : Type} (st : ServerState β) (sid : String)
    (ready : Bool) : ServerState β × List (Ev β) :=
  match lookupA st.player_sessions sid with
  | none => (st, [])
  | some session =>
    if session.gameType ≠ GameType.digu then (st, [])
    else
      match lookupA st.digu_rooms session.roomId with
      | none => (st, [])
      | some room =>
        match lookupA room.players session.position with
        | none => (st, [])
        | some pl =>
          let players2 := upsert room.players session.position { pl with ready := ready }
          let room2 := { room with players := players2 }
          ({ st with digu_rooms := upsert st.digu_rooms session.roomId room2 },
           [Ev.digu_players_changed session.roomId true players2])

/-- `handle_start_digu_game` (server.py lines 1595-1641): host-only, at
least 2 players, all ready; never inspects the room status. -/
def handle_start_digu_game {β : Type} (st : ServerState β) (sid : String)
    (gameState : β) (hands : β) : ServerState β × List (Ev β) :=
  match lookupA st.player_sessions sid with
  | none => (st, [])
  | some session =>
    if session.gameType ≠ GameType.digu then (st, [])
    else if session.position ≠ 0 then
      (st, [Ev.error "Only host can start the game"])
    else
      match lookupA st.digu_rooms session.roomId with
      | none => (st, [])
      | some room =>
        if room.players.length < 2 then
          (st, [Ev.error "Need at least 2 players to start"])
        else if !(room.players.all (fun pp => pp.2.ready)) then
          (st, [Ev.error "All players must be ready"])
        else
          let room2 := { room with
            status := Status.playing
            gameState := some gameState
            hands := some hands }
          ({ st with digu_rooms := upsert st.digu_rooms session.roomId room2 },
           [Ev.digu_game_started session.roomId gameState hands room.players])

/-- `handle_digu_draw_card` (server.py lines 1643-1668): pure relay. -/
def handle_digu_draw_card {β : Type} (st : ServerState β) (sid : String)
    (source : String) (card : β) : ServerState β × List (Ev β) :=
  match lookupA st.player_sessions sid with
  | none => (st, [])
  | some session =>
    if session.gameType ≠ GameType.digu then (st, [])
    else (st, [Ev.digu_remote_card_drawn session.roomId source card session.position])

/-- `handle_digu_discard_card` (server.py lines 1670-1693): pure relay. -/
def handle_digu_discard_card {β : Type} (st : ServerState β) (sid : String)
    (card : β) : ServerState β × List (Ev β) :=
  match lookupA st.player_sessions sid with
  | none => (st, [])
  | some session =>
    if session.gameType ≠ GameType.digu then (st, [])
    else (st, [Ev.digu_remote_card_discarded session.roomId card session.position])

/-- `handle_digu_declare` (server.py lines 1695-1720): pure relay. -/
def handle_digu_declare {β : Type} (st : ServerState β) (sid : String)
    (melds : β) (isValid : Bool) : ServerState β × List (Ev β) :=
  match lookupA st.player_sessions sid with
  | none => (st, [])
  | some session =>
    if session.gameType ≠ GameType.digu then (st, [])
    else (st, [Ev.digu_remote_declare session.roomId session.position melds isValid])

/-- `handle_digu_update_state` (server.py lines 1722-1741). -/
def handle_digu_update_state {β : Type} (st : ServerState β) (sid : String)
    (gameState : β) : ServerState β × List (Ev β) :=
  match lookupA st.player_sessions sid with
  | none => (st, [])
  | some session =>
    if session.gameType ≠ GameType.digu then (st, [])
    else
      match lookupA st.digu_rooms session.roomId with
      | none => (st, [])
      | some room =>
        let room2 := { room with gameState := some gameState }
        ({ st with digu_rooms := upsert st.digu_rooms session.roomId room2 },
         [Ev.digu_state_updated session.roomId gameState])

/-- `handle_digu_game_over` (server.py lines 1743-1766): pure relay. -/
def handle_digu_game_over {β : Type} (st : ServerState β) (sid : String)
    (results : β) : ServerState β × List (Ev β) :=
  match lookupA st.player_sessions sid with
  | none => (st, [])
  | some session =>
    if session.gameType ≠ GameType.digu then (st, [])
    else (st, [Ev.digu_remote_game_over session.roomId results session.position])

/-- `handle_digu_new_match` (server.py lines 1768-1795): host-only snapshot. -/
def handle_digu_new_match {β : Type} (st : ServerState β) (sid : String)
    (gameState : β) (hands : β) : ServerState β × List (Ev β) :=
  match lookupA st.player_sessions sid with
  | none => (st, [])
  | some session =>
    if session.gameType ≠ GameType.digu then (st, [])
    else if session.position ≠ 0 then (st, [])
    else
      match lookupA st.digu_rooms session.roomId with
      | none => (st, [])
      | some room =>
        let room2 := { room with gameState := some gameState, hands := some hands }
        ({ st with digu_rooms := upsert st.digu_rooms session.roomId room2 },
         [Ev.digu_match_started session.roomId gameState hands])

/-! ### Digu quick match (server.py lines 1797-1918) -/

/-- The slot dict built for each matched Digu player
(server.py lines 1877-1883): auto-ready, no confirmation phase. -/
def diguFormationSlot (e : QueueEntry) : PlayerSlot :=
  { oderId := e.sid, name := e.name, ready := true, connected := true }

/-- `check_and_start_digu_match` (server.py lines 1849-1905).  Unlike the
Dhiha Ei version: status `waiting`, no `confirmDeadline`, no timer, players
auto-ready, positions assigned 0..3 in dequeue order with no shuffle. -/
def check_and_start_digu_match {β : Type} (st : ServerState β) (now : Nat)
    (room_id : String) : ServerState β × List (Ev β) :=
  if st.digu_matchmaking_queue.length ≥ 4 then
    let match_players := st.digu_matchmaking_queue.take 4
    let queue2 := st.digu_matchmaking_queue.drop 4
    let indexed := match_players.enum
    let players2 := indexed.foldl (fun m ip => upsert m ip.1 (diguFormationSlot ip.2))
      ([] : List (Nat × PlayerSlot))
    let room1 : Room β := {
      host := (match_players.headD dummyQueueEntry).sid
      created := now
      status := Status.waiting
      playerCount := 4
      maxPlayers := some 4
      gameTypeMeta := some GameType.digu
      isQuickMatch := true
      players := players2
      gameState := none
      hands := none }
    let sessions2 := indexed.foldl
      (fun s ip => upsert s ip.2.sid
        { roomId := room_id, position := ip.1, gameType := GameType.digu })
      st.player_sessions
    let socks2 := indexed.foldl (fun s ip => socketJoin s ip.2.sid room_id)
      st.socket_memberships
    let st1 := { st with
      digu_matchmaking_queue := queue2
      digu_rooms := upsert st.digu_rooms room_id room1
      player_sessions := sessions2
      socket_memberships := socks2 }
    let evs := indexed.map (fun ip =>
      Ev.digu_match_found ip.2.sid room_id ip.1 players2)
    (st1, evs)
  else (st, [])

/-- `handle_join_digu_queue` (server.py lines 1815-1847). -/
def handle_join_digu_queue {β : Type} (st : ServerState β) (sid : String)
    (player_name : String) (now : Nat) (room_id : String) :
    ServerState β × List (Ev β) :=
  let st1 := { st with
    digu_matchmaking_queue := remove_from_digu_queue st.digu_matchmaking_queue sid }
  if (lookupA st1.player_sessions sid).isSome then
    (st1, [Ev.error "Already in a room. Leave first."])
  else
    let q2 := st1.digu_matchmaking_queue ++
      [{ sid := sid, name := player_name, joinedAt := now }]
    let st2 := { st1 with digu_matchmaking_queue := q2 }
    let evs1 : List (Ev β) := [Ev.digu_queue_joined q2.length (4 - q2.length)]
    let evsQ : List (Ev β) := digu_queue_status_events q2
    let res := check_and_start_digu_match st2 now room_id
    (res.1, evs1 ++ evsQ ++ res.2)

/-- `handle_leave_digu_queue` (server.py lines 1907-1918). -/
def handle_leave_digu_queue {β : Type} (st : ServerState β) (sid : String) :
    ServerState β × List (Ev β) :=
  let was_in_queue := st.digu_matchmaking_queue.any (fun p => decide (p.sid = sid))
  let st1 := { st with
    digu_matchmaking_queue := remove_from_digu_queue st.digu_matchmaking_queue sid }
  if was_in_queue then
    (st1, Ev.digu_queue_left ::
      (digu_queue_status_events st1.digu_matchmaking_queue : List (Ev β)))
  else (st1, [])

/-! ### The room-shape invariant (claim C4)

For every stored room: `playerCount` metadata equals the number of occupied
player slots, and the occupied positions are distinct naturals below the
room's player capacity (4 for Dhiha Ei; the `maxPlayers` metadata for
Digu). -/

/-- Shape invariant of a single room with capacity `maxP`. -/
@[reducible] def RoomInv {β : Type} (maxP : Nat) (r : Room β) : Prop :=
  r.playerCount = r.players.length ∧ (keysA r.players).Nodup ∧
    ∀ p ∈ keysA r.players, p < maxP

/-- A Digu room's capacity is its `maxPlayers` metadata. -/
@[reducible] def DiguRoomInv {β : Type} (r : Room β) : Prop :=
  RoomInv (r.maxPlayers.getD 4) r

/-- All values of a room store satisfy `P`. -/
@[reducible] def RoomsInvP {β : Type} (P : Room β → Prop)
    (l : List (String × Room β)) : Prop :=
  ∀ rr ∈ l, P rr.2

/-- The state-wide invariant: every Dhiha Ei room has capacity 4, every
Digu room its own `maxPlayers`. -/
@[reducible] def StateInv {β : Type} (st : ServerState β) : Prop :=
  RoomsInvP (RoomInv 4) st.rooms ∧ RoomsInvP DiguRoomInv st.digu_rooms

theorem lookupA_mem {α β : Type} [DecidableEq α] {l : List (α × β)} {k : α}
    {v : β} (h : lookupA l k = some v) : (k, v) ∈ l := by
  induction l with
  | nil => simp at h
  | cons kv rest ih =>
    cases kv with
    | mk a b =>
      rw [lookupA_cons] at h
      by_cases hk : a = k
      · subst hk
        rw [if_pos rfl] at h
        injection h with hbv
        subst hbv
        exact List.mem_cons_self _ _
      · rw [if_neg hk] at h
        exact List.mem_cons_of_mem _ (ih h)

theorem roomsInvP_upsert {β : Type} {P : Room β → Prop}
    {l : List (String × Room β)} {rid : String} {r : Room β}
    (h : RoomsInvP P l) (hr : P r) : RoomsInvP P (upsert l rid r) := by
  intro rr hrr
  rcases mem_upsert l rid r rr hrr with he | hm
  · rw [he]; exact hr
  · exact h rr hm

theorem roomsInvP_erase {β : Type} {P : Room β → Prop}
    {l : List (String × Room β)} {rid : String}
    (h : RoomsInvP P l) : RoomsInvP P (eraseA l rid) := by
  intro rr hrr
  exact h rr (mem_of_mem_eraseA _ _ _ hrr)

theorem roomsInvP_lookup {β : Type} {P : Room β → Prop}
    {l : List (String × Room β)} {rid : String} {r : Room β}
    (h : RoomsInvP P l) (hl : lookupA l rid = some r) : P r :=
  h (rid, r) (lookupA_mem hl)

/-- Invariance is untouched by updates that keep `players` and
`playerCount` (status changes, stored payloads, `readyForRound`). -/
theorem roomInv_of_eq {β : Type} {m : Nat} {r r2 : Room β}
    (hr : RoomInv m r) (hp : r2.players = r.players)
    (hc : r2.playerCount = r.playerCount) : RoomInv m r2 := by
  obtain ⟨h1, h2, h3⟩ := hr
  refine ⟨?_, ?_, ?_⟩
  · rw [hc, hp]; exact h1
  · rw [hp]; exact h2
  · rw [hp]; exact h3

/-- In-place update of an occupied slot keeps the invariant. -/
theorem roomInv_update_mem {β : Type} {m : Nat} {r r2 : Room β} {pos : Nat}
    {v : PlayerSlot} (hr : RoomInv m r) (hmem : pos ∈ keysA r.players)
    (hp : r2.players = upsert r.players pos v)
    (hc : r2.playerCount = r.playerCount) : RoomInv m r2 := by
  obtain ⟨h1, h2, h3⟩ := hr
  refine ⟨?_, ?_, ?_⟩
  · rw [hc, hp, length_upsert_of_mem _ _ _ hmem]; exact h1
  · rw [hp]; exact nodup_keysA_upsert _ _ _ h2
  · rw [hp, keysA_upsert_of_mem _ _ _ hmem]; exact h3

/-- Inserting a fresh in-range slot with a recomputed count keeps the
invariant. -/
theorem roomInv_insert {β : Type} {m : Nat} {r r2 : Room β} {pos : Nat}
    {v : PlayerSlot} (hr : RoomInv m r) (hnm : pos ∉ keysA r.players)
    (hlt : pos < m) (hp : r2.players = upsert r.players pos v)
    (hc : r2.playerCount = r2.players.length) : RoomInv m r2 := by
  obtain ⟨h1, h2, h3⟩ := hr
  refine ⟨hc, ?_, ?_⟩
  · rw [hp]; exact nodup_keysA_upsert _ _ _ h2
  · rw [hp, keysA_upsert_of_not_mem _ _ _ hnm]
    intro p hpmem
    rcases List.mem_append.mp hpmem with hm | hm
    · exact h3 p hm
    · rw [List.mem_singleton.mp hm]; exact hlt

/-- Deleting a slot with a recomputed count keeps the invariant. -/
theorem roomInv_erase {β : Type} {m : Nat} {r r2 : Room β} {pos : Nat}
    (hr : RoomInv m r) (hp : r2.players = eraseA r.players pos)
    (hc : r2.playerCount = r2.players.length) : RoomInv m r2 := by
  obtain ⟨h1, h2, h3⟩ := hr
  refine ⟨hc, ?_, ?_⟩
  · rw [hp]; exact nodup_keysA_eraseA _ _ h2
  · rw [hp]
    intro p hpmem
    exact h3 p (mem_keysA_eraseA _ _ _ hpmem)

/-- A swap_player move (insert at a fresh in-range target, delete the
source) keeps the invariant without recomputing the count. -/
theorem roomInv_move {β : Type} {m : Nat} {r r2 : Room β} {frm tgt : Nat}
    {v : PlayerSlot} (hr : RoomInv m r) (hfrm : frm ∈ keysA r.players)
    (htgt : tgt ∉ keysA r.players) (hlt : tgt < m)
    (hp : r2.players = eraseA (upsert r.players tgt v) frm)
    (hc : r2.playerCount = r.playerCount) : RoomInv m r2 := by
  obtain ⟨h1, h2, h3⟩ := hr
  have hkeys : keysA (upsert r.players tgt v) = keysA r.players ++ [tgt] :=
    keysA_upsert_of_not_mem _ _ _ htgt
  have hnd2 : (keysA (upsert r.players tgt v)).Nodup :=
    nodup_keysA_upsert _ _ _ h2
  have hfrm2 : frm ∈ keysA (upsert r.players tgt v) := by
    rw [hkeys]; exact List.mem_append.mpr (Or.inl hfrm)
  refine ⟨?_, ?_, ?_⟩
  · have hlen := length_eraseA_of_mem _ _ hnd2 hfrm2
    have hlen2 := length_upsert_of_not_mem r.players tgt v htgt
    rw [hc, hp]
    omega
  · rw [hp]; exact nodup_keysA_eraseA _ _ hnd2
  · rw [hp]
    intro p hpmem
    have := mem_keysA_eraseA _ _ _ hpmem
    rw [hkeys] at this
    rcases List.mem_append.mp this with hm | hm
    · exact h3 p hm
    · rw [List.mem_singleton.mp hm]; exact hlt

/-- A swap_player exchange (two in-place updates) keeps the invariant. -/
theorem roomInv_swap2 {β : Type} {m : Nat} {r r2 : Room β} {p1 p2 : Nat}
    {v1 v2 : PlayerSlot} (hr : RoomInv m r) (h1 : p1 ∈ keysA r.players)
    (h2 : p2 ∈ keysA r.players)
    (hp : r2.players = upsert (upsert r.players p1 v1) p2 v2)
    (hc : r2.playerCount = r.playerCount) : RoomInv m r2 := by
  obtain ⟨hc0, hnd, hb⟩ := hr
  have hk1 : keysA (upsert r.players p1 v1) = keysA r.players :=
    keysA_upsert_of_mem _ _ _ h1
  have h2b : p2 ∈ keysA (upsert r.players p1 v1) := by rw [hk1]; exact h2
  refine ⟨?_, ?_, ?_⟩
  · rw [hc, hp, length_upsert_of_mem _ _ _ h2b,
      length_upsert_of_mem _ _ _ h1]
    exact hc0
  · rw [hp]
    exact nodup_keysA_upsert _ _ _ (nodup_keysA_upsert _ _ _ hnd)
  · rw [hp, keysA_upsert_of_mem _ _ _ h2b, hk1]
    exact hb

/-- Fresh-key upsert is an append. -/
theorem upsert_eq_append_of_not_mem {α β : Type} [DecidableEq α]
    (l : List (α × β)) (k : α) (v : β) (h : k ∉ keysA l) :
    upsert l k v = l ++ [(k, v)] := by
  induction l with
  | nil => rfl
  | cons kv rest ih =>
    simp only [keysA_cons, List.mem_cons, not_or] at h
    have hk : kv.1 ≠ k := fun he => h.1 he.symm
    simp [upsert, hk, ih h.2]

/-- Folding fresh-keyed upserts over an accumulator is list append:
the shape of the players/sessions builds in the two match-formation
functions. -/
theorem foldl_upsert_fresh {α β : Type} [DecidableEq α] :
    ∀ (items acc : List (α × β)), (keysA (acc ++ items)).Nodup →
      items.foldl (fun m kv => upsert m kv.1 kv.2) acc = acc ++ items := by
  intro items
  induction items with
  | nil => intro acc h; simp
  | cons kv rest ih =>
    intro acc h
    have hfresh : kv.1 ∉ keysA acc := by
      have hperm : keysA (acc ++ kv :: rest) = keysA acc ++ kv.1 :: keysA rest := by
        simp [keysA]
      rw [hperm] at h
      intro hm
      have := List.disjoint_of_nodup_append h
      exact this hm (List.mem_cons_self _ _)
    have hstep : upsert acc kv.1 kv.2 = acc ++ [kv] := by
      rw [upsert_eq_append_of_not_mem _ _ _ hfresh]
    have hrearr : acc ++ kv :: rest = (acc ++ [kv]) ++ rest := by simp
    rw [List.foldl_cons, hstep]
    rw [hrearr] at h ⊢
    exact ih (acc ++ [kv]) h

/-- The players dict built by `check_and_start_match` /
`check_and_start_digu_match`, as an explicit list, given distinct slot
keys. -/
theorem foldl_upsert_build {γ δ : Type} [DecidableEq δ] (pairs : List γ)
    (key : γ → δ) (slot : γ → PlayerSlot)
    (hnd : (pairs.map key).Nodup) :
    pairs.foldl (fun m ep => upsert m (key ep) (slot ep))
        ([] : List (δ × PlayerSlot)) =
      pairs.map (fun ep => (key ep, slot ep)) := by
  have hfold : pairs.foldl (fun m ep => upsert m (key ep) (slot ep))
      ([] : List (δ × PlayerSlot)) =
      (pairs.map (fun ep => (key ep, slot ep))).foldl
        (fun m kv => upsert m kv.1 kv.2) ([] : List (δ × PlayerSlot)) := by
    rw [List.foldl_map]
  rw [hfold]
  have hkeys : keysA (([] : List (δ × PlayerSlot)) ++
      pairs.map (fun ep => (key ep, slot ep))) = pairs.map key := by
    simp [keysA, List.map_map]
  have := foldl_upsert_fresh (pairs.map (fun ep => (key ep, slot ep)))
    ([] : List (δ × PlayerSlot)) (by rw [hkeys]; exact hnd)
  rw [this]
  simp

theorem foldl_upsert_build_keysA {γ δ : Type} [DecidableEq δ] (pairs : List γ)
    (key : γ → δ) (slot : γ → PlayerSlot)
    (hnd : (pairs.map key).Nodup) :
    keysA (pairs.foldl (fun m ep => upsert m (key ep) (slot ep))
        ([] : List (δ × PlayerSlot))) = pairs.map key := by
  rw [foldl_upsert_build pairs key slot hnd]
  simp [keysA, List.map_map]

theorem foldl_upsert_build_length {γ δ : Type} [DecidableEq δ] (pairs : List γ)
    (key : γ → δ) (slot : γ → PlayerSlot)
    (hnd : (pairs.map key).Nodup) :
    (pairs.foldl (fun m ep => upsert m (key ep) (slot ep))
        ([] : List (δ × PlayerSlot))).length = pairs.length := by
  rw [foldl_upsert_build pairs key slot hnd]
  simp

theorem stateInv_of_eq {β : Type} {st st2 : ServerState β} (h : StateInv st)
    (hr : st2.rooms = st.rooms) (hd : st2.digu_rooms = st.digu_rooms) :
    StateInv st2 :=
  ⟨hr ▸ h.1, hd ▸ h.2⟩

theorem stateInv_set_sessions {β : Type} {st : ServerState β}
    (ps : List (String × Session)) (h : StateInv st) :
    StateInv { st with player_sessions := ps } := ⟨h.1, h.2⟩

theorem stateInv_handle_create_room {β : Type} (st : ServerState β)
    (sid player_name : String) (now : Nat) (room_id : String)
    (h : StateInv st) :
    StateInv (handle_create_room st sid player_name now room_id).1 := by
  refine ⟨roomsInvP_upsert h.1 ?_, h.2⟩
  refine ⟨rfl, ?_, ?_⟩ <;> simp [keysA]

theorem stateInv_handle_join_room {β : Type} (st : ServerState β)
    (sid roomIdRaw player_name : String) (h : StateInv st) :
    StateInv (handle_join_room st sid roomIdRaw player_name).1 := by
  simp only [handle_join_room]
  split
  · exact h
  next room hl =>
    split
    · exact h
    · split
      · exact h
      next position hf =>
        refine ⟨roomsInvP_upsert h.1 ?_, h.2⟩
        have hroom := roomsInvP_lookup h.1 hl
        have hmemrange : position ∈ List.range 4 := List.mem_of_find?_eq_some hf
        have hpred := List.find?_some (p := fun i => decide (i ∉ keysA room.players)) hf
        have hnm : position ∉ keysA room.players := of_decide_eq_true (by exact hpred)
        exact roomInv_insert hroom hnm (List.mem_range.mp hmemrange) rfl rfl

theorem stateInv_handle_leave_room {β : Type} (st : ServerState β)
    (sid : String) (h : StateInv st) :
    StateInv (handle_leave_room st sid).1 := by
  simp only [handle_leave_room]
  split
  · exact h
  next session hs =>
    apply stateInv_set_sessions
    split
    · exact h
    next room hl =>
      split
      · exact stateInv_of_eq h rfl rfl
      next pl hpl =>
        split
        · exact ⟨roomsInvP_erase h.1, h.2⟩
        · split
          · exact ⟨roomsInvP_upsert h.1
              (roomInv_erase (roomsInvP_lookup h.1 hl) rfl rfl), h.2⟩
          · exact ⟨roomsInvP_upsert h.1
              (roomInv_erase (roomsInvP_lookup h.1 hl) rfl rfl), h.2⟩

theorem stateInv_handle_set_ready {β : Type} (st : ServerState β)
    (sid : String) (ready : Bool) (h : StateInv st) :
    StateInv (handle_set_ready st sid ready).1 := by
  simp only [handle_set_ready]
  split
  · exact h
  next session hs =>
    split
    · exact h
    next room hl =>
      split
      · exact h
      next pl hpl =>
        refine ⟨roomsInvP_upsert h.1 ?_, h.2⟩
        exact roomInv_update_mem (roomsInvP_lookup h.1 hl)
          (mem_keysA_of_lookupA_eq_some _ _ _ hpl) rfl rfl

theorem stateInv_handle_swap_player {β : Type} (st : ServerState β)
    (sid : String) (from_position : Nat) (h : StateInv st) :
    StateInv (handle_swap_player st sid from_position).1 := by
  simp only [handle_swap_player]
  split
  · exact h
  next session hs =>
    split
    · exact h
    · split
      · exact h
      next room hl =>
        split
        · exact h
        next player_to_move hpl =>
          split
          next target_position hf =>
            refine ⟨roomsInvP_upsert h.1 ?_, h.2⟩
            have hroom := roomsInvP_lookup h.1 hl
            have hfrm := mem_keysA_of_lookupA_eq_some _ _ _ hpl
            have hpred := List.find?_some
              (p := fun pos => decide (pos ∉ keysA room.players)) hf
            have hnm : target_position ∉ keysA room.players :=
              of_decide_eq_true (by exact hpred)
            have htp := List.mem_of_find?_eq_some hf
            have hlt : target_position < 4 := by
              simp only [swapTargets] at htp
              split at htp <;> simp at htp <;> rcases htp with h1 | h1 <;> omega
            exact roomInv_move hroom hfrm hnm hlt rfl rfl
          next hf =>
            split
            · exact h
            next player_to_swap hpl2 =>
              refine ⟨roomsInvP_upsert h.1 ?_, h.2⟩
              have hroom := roomsInvP_lookup h.1 hl
              have hfrm := mem_keysA_of_lookupA_eq_some _ _ _ hpl
              have htgt := mem_keysA_of_lookupA_eq_some _ _ _ hpl2
              exact roomInv_swap2 hroom htgt hfrm rfl rfl

theorem stateInv_handle_start_game {β : Type} (st : ServerState β)
    (sid : String) (gameState hands : β) (h : StateInv st) :
    StateInv (handle_start_game st sid gameState hands).1 := by
  simp only [handle_start_game]
  split
  · exact h
  next session hs =>
    split
    · exact h
    · split
      · exact h
      next room hl =>
        split
        · exact h
        · split
          · exact h
          · exact ⟨roomsInvP_upsert h.1
              (roomInv_of_eq (roomsInvP_lookup h.1 hl) rfl rfl), h.2⟩

theorem stateInv_handle_card_played {β : Type} (st : ServerState β)
    (sid : String) (card : β) (h : StateInv st) :
    StateInv (handle_card_played st sid card).1 := by
  simp only [handle_card_played]
  split <;> exact h

theorem stateInv_handle_update_game_state {β : Type} (st : ServerState β)
    (sid : String) (gameState : β) (h : StateInv st) :
    StateInv (handle_update_game_state st sid gameState).1 := by
  simp only [handle_update_game_state]
  split
  · exact h
  next session hs =>
    split
    · exact h
    next room hl =>
      exact ⟨roomsInvP_upsert h.1
        (roomInv_of_eq (roomsInvP_lookup h.1 hl) rfl rfl), h.2⟩

theorem stateInv_handle_new_round {β : Type} (st : ServerState β)
    (sid : String) (gameState hands : β) (h : StateInv st) :
    StateInv (handle_new_round st sid gameState hands).1 := by
  simp only [handle_new_round]
  split
  · exact h
  next session hs =>
    split
    · exact h
    · split
      · exact h
      next room hl =>
        exact ⟨roomsInvP_upsert h.1
          (roomInv_of_eq (roomsInvP_lookup h.1 hl) rfl rfl), h.2⟩

theorem stateInv_handle_ready_for_round {β : Type} (st : ServerState β)
    (sid : String) (h : StateInv st) :
    StateInv (handle_ready_for_round st sid).1 := by
  simp only [handle_ready_for_round]
  split
  · exact h
  next session hs =>
    split
    · exact h
    next room hl =>
      split
      · exact ⟨roomsInvP_upsert h.1
          (roomInv_of_eq (roomsInvP_lookup h.1 hl) rfl rfl), h.2⟩
      · exact ⟨roomsInvP_upsert h.1
          (roomInv_of_eq (roomsInvP_lookup h.1 hl) rfl rfl), h.2⟩

theorem stateInv_handle_confirm_match {β : Type} (st : ServerState β)
    (sid : String) (h : StateInv st) :
    StateInv (handle_confirm_match st sid).1 := by
  simp only [handle_confirm_match]
  split
  · exact h
  next session hs =>
    split
    · exact h
    next room hl =>
      split
      · exact h
      · split
        · exact h
        next pl hpl =>
          split
          · exact ⟨roomsInvP_upsert h.1
              (roomInv_update_mem (roomsInvP_lookup h.1 hl)
                (mem_keysA_of_lookupA_eq_some _ _ _ hpl) rfl rfl), h.2⟩
          · exact ⟨roomsInvP_upsert h.1
              (roomInv_update_mem (roomsInvP_lookup h.1 hl)
                (mem_keysA_of_lookupA_eq_some _ _ _ hpl) rfl rfl), h.2⟩

theorem stateInv_check_and_start_match {β : Type} (st : ServerState β)
    (now : Nat) (room_id : String) (positions : List Nat)
    (hperm : List.Perm positions [0, 1, 2, 3]) (h : StateInv st) :
    StateInv (check_and_start_match st now room_id positions).1 := by
  simp only [check_and_start_match]
  split
  case isFalse => exact h
  case isTrue hlen =>
    refine ⟨roomsInvP_upsert h.1 ?_, h.2⟩
    have hq4 : (st.matchmaking_queue.take 4).length = 4 := by
      rw [List.length_take]; omega
    have hplen : positions.length = 4 := hperm.length_eq
    have hsnd : ((st.matchmaking_queue.take 4).zip positions).map Prod.snd
        = positions := List.map_snd_zip _ _ (by omega)
    have hndpos : positions.Nodup := hperm.nodup_iff.mpr (by decide)
    have hnd : (((st.matchmaking_queue.take 4).zip positions).map
        (fun ep => ep.2)).Nodup := by
      have hx : (((st.matchmaking_queue.take 4).zip positions).map
          Prod.snd).Nodup := by rw [hsnd]; exact hndpos
      exact hx
    have hpl := foldl_upsert_build ((st.matchmaking_queue.take 4).zip positions)
      (fun ep => ep.2) (fun ep => formationSlot ep.1) hnd
    have hkeys2 : keysA (((st.matchmaking_queue.take 4).zip positions).map
        (fun ep => ((fun ep => ep.2) ep, (fun ep => formationSlot ep.1) ep)))
        = positions := by
      simp only [keysA, List.map_map]
      exact hsnd
    rw [hpl]
    refine ⟨?_, ?_, ?_⟩
    · simp [List.length_zip, hq4, hplen]
    · rw [hkeys2]; exact hndpos
    · intro p hp
      rw [hkeys2] at hp
      have hm := hperm.mem_iff.mp hp
      simp only [List.mem_cons, List.mem_singleton, List.not_mem_nil,
        or_false] at hm
      rcases hm with h1 | h1 | h1 | h1 <;> omega

theorem stateInv_handle_join_queue {β : Type} (st : ServerState β)
    (sid player_name : String) (now : Nat) (room_id : String)
    (positions : List Nat) (hperm : List.Perm positions [0, 1, 2, 3])
    (h : StateInv st) :
    StateInv (handle_join_queue st sid player_name now room_id positions).1 := by
  simp only [handle_join_queue]
  split
  · exact stateInv_of_eq h rfl rfl
  · exact stateInv_check_and_start_match _ now room_id positions hperm
      (stateInv_of_eq h rfl rfl)

theorem stateInv_handle_leave_queue {β : Type} (st : ServerState β)
    (sid : String) (h : StateInv st) :
    StateInv (handle_leave_queue st sid).1 := by
  simp only [handle_leave_queue]
  split <;> exact stateInv_of_eq h rfl rfl

theorem stateInv_timeout_evict {β : Type} (pps : List (Nat × PlayerSlot)) :
    ∀ (st : ServerState β) (rid : String), StateInv st →
      StateInv (timeout_evict st rid pps) := by
  induction pps with
  | nil => intro st rid h; exact h
  | cons p rest ih =>
    intro st rid h
    exact ih _ rid (stateInv_of_eq h rfl rfl)

theorem stateInv_timeout_requeue {β : Type} (pps : List (Nat × PlayerSlot)) :
    ∀ (st : ServerState β) (rid : String) (now : Nat), StateInv st →
      StateInv (timeout_requeue st rid now pps) := by
  induction pps with
  | nil => intro st rid now h; exact h
  | cons p rest ih =>
    intro st rid now h
    exact ih _ rid now (stateInv_of_eq h rfl rfl)

theorem stateInv_set_timeouts {β : Type} {st : ServerState β}
    (ts : List String) (h : StateInv st) :
    StateInv { st with match_timeouts := ts } := ⟨h.1, h.2⟩

theorem stateInv_handle_confirmation_timeout {β : Type} (st : ServerState β)
    (room_id : String) (now : Nat) (retry_room_id : String)
    (retry_positions : List Nat)
    (hperm : List.Perm retry_positions [0, 1, 2, 3]) (h : StateInv st) :
    StateInv (handle_confirmation_timeout st room_id now retry_room_id
      retry_positions).1 := by
  simp only [handle_confirmation_timeout, timeout_recover]
  split
  · exact stateInv_of_eq h rfl rfl
  next room hl =>
    split
    · apply stateInv_set_timeouts
      apply stateInv_check_and_start_match _ now retry_room_id retry_positions hperm
      refine ⟨roomsInvP_erase ?_, ?_⟩
      · exact (stateInv_timeout_requeue _ _ _ now
          (stateInv_timeout_evict _ _ _ h)).1
      · exact (stateInv_timeout_requeue _ _ _ now
          (stateInv_timeout_evict _ _ _ h)).2
    · exact stateInv_of_eq h rfl rfl

theorem stateInv_disconnect_cleanup_dhihaei {β : Type} (st : ServerState β)
    (room_id : String) (position : Nat) (h : StateInv st) :
    StateInv (disconnect_cleanup_dhihaei st room_id position).1 := by
  simp only [disconnect_cleanup_dhihaei]
  split
  · exact h
  next room hl =>
    split
    · exact h
    next pl hpl =>
      split
      · exact ⟨roomsInvP_upsert h.1
          (roomInv_update_mem (roomsInvP_lookup h.1 hl)
            (mem_keysA_of_lookupA_eq_some _ _ _ hpl) rfl rfl), h.2⟩
      · split
        · exact ⟨roomsInvP_erase h.1, h.2⟩
        · exact ⟨roomsInvP_upsert h.1
            (roomInv_erase (roomsInvP_lookup h.1 hl) rfl rfl), h.2⟩

theorem stateInv_disconnect_cleanup_digu {β : Type} (st : ServerState β)
    (room_id : String) (position : Nat) (h : StateInv st) :
    StateInv (disconnect_cleanup_digu st room_id position).1 := by
  simp only [disconnect_cleanup_digu]
  split
  · exact h
  next room hl =>
    split
    · exact h
    next pl hpl =>
      have hroom : RoomInv (room.maxPlayers.getD 4) room :=
        roomsInvP_lookup (P := DiguRoomInv) h.2 hl
      split
      · refine ⟨h.1, roomsInvP_upsert (P := DiguRoomInv) h.2 ?_⟩
        exact roomInv_update_mem hroom
          (mem_keysA_of_lookupA_eq_some _ _ _ hpl) rfl rfl
      · split
        · exact ⟨h.1, roomsInvP_erase h.2⟩
        · refine ⟨h.1, roomsInvP_upsert (P := DiguRoomInv) h.2 ?_⟩
          exact roomInv_erase hroom rfl rfl

theorem stateInv_handle_disconnect {β : Type} (st : ServerState β)
    (sid : String) (h : StateInv st) :
    StateInv (handle_disconnect st sid).1 := by
  simp only [handle_disconnect]
  split
  · exact stateInv_of_eq h rfl rfl
  next session hs =>
    apply stateInv_set_sessions
    split
    · exact stateInv_disconnect_cleanup_digu _ _ _ (stateInv_of_eq h rfl rfl)
    · split
      · exact stateInv_disconnect_cleanup_dhihaei _ _ _ (stateInv_of_eq h rfl rfl)
      · exact stateInv_of_eq h rfl rfl

theorem stateInv_handle_create_digu_room {β : Type} (st : ServerState β)
    (sid player_name : String) (maxPlayersReq now : Nat) (room_id : String)
    (h : StateInv st) :
    StateInv (handle_create_digu_room st sid player_name maxPlayersReq now
      room_id).1 := by
  simp only [handle_create_digu_room]
  refine ⟨h.1, roomsInvP_upsert (P := DiguRoomInv) h.2 ?_⟩
  refine ⟨rfl, by simp [keysA], ?_⟩
  intro p hp
  simp only [keysA, List.map_cons, List.map_nil, List.mem_singleton] at hp
  subst hp
  simp only [Option.getD_some]
  split <;> omega

theorem stateInv_handle_join_digu_room {β : Type} (st : ServerState β)
    (sid roomIdRaw player_name : String) (h : StateInv st) :
    StateInv (handle_join_digu_room st sid roomIdRaw player_name).1 := by
  simp only [handle_join_digu_room]
  split
  · exact h
  next room hl =>
    have hroom : RoomInv (room.maxPlayers.getD 4) room :=
      roomsInvP_lookup (P := DiguRoomInv) h.2 hl
    split
    · exact h
    · split
      · exact h
      next position hf =>
        refine ⟨h.1, roomsInvP_upsert (P := DiguRoomInv) h.2 ?_⟩
        have hmemrange : position ∈ List.range (room.maxPlayers.getD 4) :=
          List.mem_of_find?_eq_some hf
        have hpred := List.find?_some
          (p := fun i => decide (i ∉ keysA room.players)) hf
        have hnm : position ∉ keysA room.players :=
          of_decide_eq_true (by exact hpred)
        exact roomInv_insert hroom hnm (List.mem_range.mp hmemrange) rfl rfl

theorem stateInv_handle_leave_digu_room {β : Type} (st : ServerState β)
    (sid : String) (h : StateInv st) :
    StateInv (handle_leave_digu_room st sid).1 := by
  simp only [handle_leave_digu_room]
  split
  · exact h
  next session hs =>
    split
    · exact h
    · apply stateInv_set_sessions
      split
      · exact h
      next room hl =>
        have hroom : RoomInv (room.maxPlayers.getD 4) room :=
          roomsInvP_lookup (P := DiguRoomInv) h.2 hl
        split
        · exact stateInv_of_eq h rfl rfl
        next pl hpl =>
          split
          · exact ⟨h.1, roomsInvP_erase h.2⟩
          · split
            · refine ⟨h.1, roomsInvP_upsert (P := DiguRoomInv) h.2 ?_⟩
              exact roomInv_erase hroom rfl rfl
            · refine ⟨h.1, roomsInvP_upsert (P := DiguRoomInv) h.2 ?_⟩
              exact roomInv_erase hroom rfl rfl

theorem stateInv_handle_digu_set_ready {β : Type} (st : ServerState β)
    (sid : String) (ready : Bool) (h : StateInv st) :
    StateInv (handle_digu_set_ready st sid ready).1 := by
  simp only [handle_digu_set_ready]
  split
  · exact h
  next session hs =>
    split
    · exact h
    · split
      · exact h
      next room hl =>
        have hroom : RoomInv (room.maxPlayers.getD 4) room :=
          roomsInvP_lookup (P := DiguRoomInv) h.2 hl
        split
        · exact h
        next pl hpl =>
          refine ⟨h.1, roomsInvP_upsert (P := DiguRoomInv) h.2 ?_⟩
          exact roomInv_update_mem hroom
            (mem_keysA_of_lookupA_eq_some _ _ _ hpl) rfl rfl

theorem stateInv_handle_start_digu_game {β : Type} (st : ServerState β)
    (sid : String) (gameState hands : β) (h : StateInv st) :
    StateInv (handle_start_digu_game st sid gameState hands).1 := by
  simp only [handle_start_digu_game]
  split
  · exact h
  next session hs =>
    split
    · exact h
    · split
      · exact h
      · split
        · exact h
        next room hl =>
          have hroom : RoomInv (room.maxPlayers.getD 4) room :=
            roomsInvP_lookup (P := DiguRoomInv) h.2 hl
          split
          · exact h
          · split
            · exact h
            · refine ⟨h.1, roomsInvP_upsert (P := DiguRoomInv) h.2 ?_⟩
              exact roomInv_of_eq hroom rfl rfl

theorem stateInv_handle_digu_update_state {β : Type} (st : ServerState β)
    (sid : String) (gameState : β) (h : StateInv st) :
    StateInv (handle_digu_update_state st sid gameState).1 := by
  simp only [handle_digu_update_state]
  split
  · exact h
  next session hs =>
    split
    · exact h
    · split
      · exact h
      next room hl =>
        have hroom : RoomInv (room.maxPlayers.getD 4) room :=
          roomsInvP_lookup (P := DiguRoomInv) h.2 hl
        refine ⟨h.1, roomsInvP_upsert (P := DiguRoomInv) h.2 ?_⟩
        exact roomInv_of_eq hroom rfl rfl

theorem stateInv_handle_digu_new_match {β : Type} (st : ServerState β)
    (sid : String) (gameState hands : β) (h : StateInv st) :
    StateInv (handle_digu_new_match st sid gameState hands).1 := by
  simp only [handle_digu_new_match]
  split
  · exact h
  next session hs =>
    split
    · exact h
    · split
      · exact h
      · split
        · exact h
        next room hl =>
          have hroom : RoomInv (room.maxPlayers.getD 4) room :=
            roomsInvP_lookup (P := DiguRoomInv) h.2 hl
          refine ⟨h.1, roomsInvP_upsert (P := DiguRoomInv) h.2 ?_⟩
          exact roomInv_of_eq hroom rfl rfl

theorem stateInv_handle_digu_draw_card {β : Type} (st : ServerState β)
    (sid source : String) (card : β) (h : StateInv st) :
    StateInv (handle_digu_draw_card st sid source card).1 := by
  simp only [handle_digu_draw_card]
  split
  · exact h
  · split <;> exact h

theorem stateInv_handle_digu_discard_card {β : Type} (st : ServerState β)
    (sid : String) (card : β) (h : StateInv st) :
    StateInv (handle_digu_discard_card st sid card).1 := by
  simp only [handle_digu_discard_card]
  split
  · exact h
  · split <;> exact h

theorem stateInv_handle_digu_declare {β : Type} (st : ServerState β)
    (sid : String) (melds : β) (isValid : Bool) (h : StateInv st) :
    StateInv (handle_digu_declare st sid melds isValid).1 := by
  simp only [handle_digu_declare]
  split
  · exact h
  · split <;> exact h

theorem stateInv_handle_digu_game_over {β : Type} (st : ServerState β)
    (sid : String) (results : β) (h : StateInv st) :
    StateInv (handle_digu_game_over st sid results).1 := by
  simp only [handle_digu_game_over]
  split
  · exact h
  · split <;> exact h

theorem stateInv_check_and_start_digu_match {β : Type} (st : ServerState β)
    (now : Nat) (room_id : String) (h : StateInv st) :
    StateInv (check_and_start_digu_match st now room_id).1 := by
  simp only [check_and_start_digu_match]
  split
  case isFalse => exact h
  case isTrue hlen =>
    refine ⟨h.1, roomsInvP_upsert (P := DiguRoomInv) h.2 ?_⟩
    have hq4 : (st.digu_matchmaking_queue.take 4).length = 4 := by
      rw [List.length_take]; omega
    have hfst : (st.digu_matchmaking_queue.take 4).enum.map Prod.fst
        = List.range 4 := by rw [List.enum_map_fst, hq4]
    have hnd : ((st.digu_matchmaking_queue.take 4).enum.map
        (fun ip => ip.1)).Nodup := by
      have hx : ((st.digu_matchmaking_queue.take 4).enum.map Prod.fst).Nodup := by
        rw [hfst]; exact List.nodup_range 4
      exact hx
    have hpl := foldl_upsert_build ((st.digu_matchmaking_queue.take 4).enum)
      (fun ip => ip.1) (fun ip => diguFormationSlot ip.2) hnd
    have hkeys2 : keysA ((st.digu_matchmaking_queue.take 4).enum.map
        (fun ip => ((fun ip => ip.1) ip, (fun ip => diguFormationSlot ip.2) ip)))
        = List.range 4 := by
      simp only [keysA, List.map_map]
      exact hfst
    rw [hpl]
    refine ⟨?_, ?_, ?_⟩
    · simp [List.enum_length, hq4]
    · rw [hkeys2]; exact List.nodup_range 4
    · intro p hp
      rw [hkeys2] at hp
      exact List.mem_range.mp hp

theorem stateInv_handle_join_digu_queue {β : Type} (st : ServerState β)
    (sid player_name : String) (now : Nat) (room_id : String)
    (h : StateInv st) :
    StateInv (handle_join_digu_queue st sid player_name now room_id).1 := by
  simp only [handle_join_digu_queue]
  split
  · exact stateInv_of_eq h rfl rfl
  · exact stateInv_check_and_start_digu_match _ now room_id
      (stateInv_of_eq h rfl rfl)

theorem stateInv_handle_leave_digu_queue {β : Type} (st : ServerState β)
    (sid : String) (h : StateInv st) :
    StateInv (handle_leave_digu_queue st sid).1 := by
  simp only [handle_leave_digu_queue]
  split <;> exact stateInv_of_eq h rfl rfl

/-- One server operation: an inbound socketio event handled by one of the
embedded handlers, or a confirmation-deadline firing.  The side conditions
record what the runtime guarantees: `random.shuffle [0,1,2,3]` always
yields a permutation of `[0,1,2,3]`. -/
inductive Step (β : Type) : ServerState β → ServerState β → Prop where
  | disconnect (st : ServerState β) (sid : String) :
      Step β st (handle_disconnect st sid).1
  | create_room (st : ServerState β) (sid player_name : String) (now : Nat)
      (room_id : String) :
      Step β st (handle_create_room st sid player_name now room_id).1
  | join_room (st : ServerState β) (sid roomIdRaw player_name : String) :
      Step β st (handle_join_room st sid roomIdRaw player_name).1
  | leave_room (st : ServerState β) (sid : String) :
      Step β st (handle_leave_room st sid).1
  | set_ready (st : ServerState β) (sid : String) (ready : Bool) :
      Step β st (handle_set_ready st sid ready).1
  | swap_player (st : ServerState β) (sid : String) (from_position : Nat) :
      Step β st (handle_swap_player st sid from_position).1
  | start_game (st : ServerState β) (sid : String) (gameState hands : β) :
      Step β st (handle_start_game st sid gameState hands).1
  | card_played (st : ServerState β) (sid : String) (card : β) :
      Step β st (handle_card_played st sid card).1
  | update_game_state (st : ServerState β) (sid : String) (gameState : β) :
      Step β st (handle_update_game_state st sid gameState).1
  | new_round (st : ServerState β) (sid : String) (gameState hands : β) :
      Step β st (handle_new_round st sid gameState hands).1
  | ready_for_round (st : ServerState β) (sid : String) :
      Step β st (handle_ready_for_round st sid).1
  | join_queue (st : ServerState β) (sid player_name : String) (now : Nat)
      (room_id : String) (positions : List Nat)
      (hperm : List.Perm positions [0, 1, 2, 3]) :
      Step β st (handle_join_queue st sid player_name now room_id positions).1
  | leave_queue (st : ServerState β) (sid : String) :
      Step β st (handle_leave_queue st sid).1
  | confirm_match (st : ServerState β) (sid : String) :
      Step β st (handle_confirm_match st sid).1
  | confirmation_timeout (st : ServerState β) (room_id : String) (now : Nat)
      (retry_room_id : String) (retry_positions : List Nat)
      (hperm : List.Perm retry_positions [0, 1, 2, 3]) :
      Step β st (handle_confirmation_timeout st room_id now retry_room_id
        retry_positions).1
  | create_digu_room (st : ServerState β) (sid player_name : String)
      (maxPlayersReq now : Nat) (room_id : String) :
      Step β st (handle_create_digu_room st sid player_name maxPlayersReq now
        room_id).1
  | join_digu_room (st : ServerState β) (sid roomIdRaw player_name : String) :
      Step β st (handle_join_digu_room st sid roomIdRaw player_name).1
  | leave_digu_room (st : ServerState β) (sid : String) :
      Step β st (handle_leave_digu_room st sid).1
  | digu_set_ready (st : ServerState β) (sid : String) (ready : Bool) :
      Step β st (handle_digu_set_ready st sid ready).1
  | start_digu_game (st : ServerState β) (sid : String) (gameState hands : β) :
      Step β st (handle_start_digu_game st sid gameState hands).1
  | digu_draw_card (st : ServerState β) (sid source : String) (card : β) :
      Step β st (handle_digu_draw_card st sid source card).1
  | digu_discard_card (st : ServerState β) (sid : String) (card : β) :
      Step β st (handle_digu_discard_card st sid card).1
  | digu_declare (st : ServerState β) (sid : String) (melds : β) (isValid : Bool) :
      Step β st (handle_digu_declare st sid melds isValid).1
  | digu_update_state (st : ServerState β) (sid : String) (gameState : β) :
      Step β st (handle_digu_update_state st sid gameState).1
  | digu_game_over (st : ServerState β) (sid : String) (results : β) :
      Step β st (handle_digu_game_over st sid results).1
  | digu_new_match (st : ServerState β) (sid : String) (gameState hands : β) :
      Step β st (handle_digu_new_match st sid gameState hands).1
  | join_digu_queue (st : ServerState β) (sid player_name : String)
      (now : Nat) (room_id : String) :
      Step β st (handle_join_digu_queue st sid player_name now room_id).1
  | leave_digu_queue (st : ServerState β) (sid : String) :
      Step β st (handle_leave_digu_queue st sid).1

/-- C4: every operation preserves the room-shape invariant: in each stored
room (any status), `playerCount` equals the number of occupied player
positions, and the occupied positions are distinct integers below the
room's capacity (4 for Dhiha Ei rooms, `maxPlayers` for Digu rooms). -/
theorem claim_C4 {β : Type} (st st2 : ServerState β) (h : StateInv st)
    (hstep : Step β st st2) : StateInv st2 := by
  cases hstep with
  | disconnect sid => exact stateInv_handle_disconnect _ sid h
  | create_room sid player_name now room_id =>
      exact stateInv_handle_create_room _ sid player_name now room_id h
  | join_room sid roomIdRaw player_name =>
      exact stateInv_handle_join_room _ sid roomIdRaw player_name h
  | leave_room sid => exact stateInv_handle_leave_room _ sid h
  | set_ready sid ready => exact stateInv_handle_set_ready _ sid ready h
  | swap_player sid from_position =>
      exact stateInv_handle_swap_player _ sid from_position h
  | start_game sid gameState hands =>
      exact stateInv_handle_start_game _ sid gameState hands h
  | card_played sid card => exact stateInv_handle_card_played _ sid card h
  | update_game_state sid gameState =>
      exact stateInv_handle_update_game_state _ sid gameState h
  | new_round sid gameState hands =>
      exact stateInv_handle_new_round _ sid gameState hands h
  | ready_for_round sid => exact stateInv_handle_ready_for_round _ sid h
  | join_queue sid player_name now room_id positions hperm =>
      exact stateInv_handle_join_queue _ sid player_name now room_id positions
        hperm h
  | leave_queue sid => exact stateInv_handle_leave_queue _ sid h
  | confirm_match sid => exact stateInv_handle_confirm_match _ sid h
  | confirmation_timeout room_id now retry_room_id retry_positions hperm =>
      exact stateInv_handle_confirmation_timeout _ room_id now retry_room_id
        retry_positions hperm h
  | create_digu_room sid player_name maxPlayersReq now room_id =>
      exact stateInv_handle_create_digu_room _ sid player_name maxPlayersReq
        now room_id h
  | join_digu_room sid roomIdRaw player_name =>
      exact stateInv_handle_join_digu_room _ sid roomIdRaw player_name h
  | leave_digu_room sid => exact stateInv_handle_leave_digu_room _ sid h
  | digu_set_ready sid ready =>
      exact stateInv_handle_digu_set_ready _ sid ready h
  | start_digu_game sid gameState hands =>
      exact stateInv_handle_start_digu_game _ sid gameState hands h
  | digu_draw_card sid source card =>
      exact stateInv_handle_digu_draw_card _ sid source card h
  | digu_discard_card sid card =>
      exact stateInv_handle_digu_discard_card _ sid card h
  | digu_declare sid melds isValid =>
      exact stateInv_handle_digu_declare _ sid melds isValid h
  | digu_update_state sid gameState =>
      exact stateInv_handle_digu_update_state _ sid gameState h
  | digu_game_over sid results =>
      exact stateInv_handle_digu_game_over _ sid results h
  | digu_new_match sid gameState hands =>
      exact stateInv_handle_digu_new_match _ sid gameState hands h
  | join_digu_queue sid player_name now room_id =>
      exact stateInv_handle_join_digu_queue _ sid player_name now room_id h
  | leave_digu_queue sid => exact stateInv_handle_leave_digu_queue _ sid h

/-- Witness for C4: the invariant holds after creating a room from the
empty initial state. -/
theorem claim_C4_witness :
    StateInv (handle_create_room ({} : ServerState Nat) "A" "Alice" 0 "ABCDEF").1 :=
  claim_C4 ({} : ServerState Nat) _ (by decide)
    (Step.create_room ({} : ServerState Nat) "A" "Alice" 0 "ABCDEF")

/-! ### Claims C9 and C10: start_game -/

/-- Claim C9: start_game errors back to the caller exactly when its
preconditions fail: a not-host error when the caller's session position is
not 0; a not-enough-players error when the room has fewer than the required
4 occupied slots; a not-all-ready error when 4 slots are occupied but some
occupied slot has ready=false.  When the host calls it on a room with
exactly 4 occupied slots all ready, the room's status becomes `playing`,
the provided gameState and hands are stored in the room, and a
`game_started` event carrying both blobs and the player list is broadcast
to the room. -/
theorem claim_C9 {β : Type} (st : ServerState β) (sid : String)
    (gameState hands : β) (session : Session) (room : Room β)
    (hs : lookupA st.player_sessions sid = some session)
    (hl : lookupA st.rooms session.roomId = some room) :
    (session.position ≠ 0 →
      handle_start_game st sid gameState hands =
        (st, [Ev.error "Only host can start the game"])) ∧
    (session.position = 0 → room.players.length < 4 →
      handle_start_game st sid gameState hands =
        (st, [Ev.error "Need 4 players to start"])) ∧
    (session.position = 0 → room.players.length = 4 →
      (∃ pp ∈ room.players, pp.2.ready = false) →
      handle_start_game st sid gameState hands =
        (st, [Ev.error "All players must be ready"])) ∧
    (session.position = 0 → room.players.length = 4 →
      (∀ pp ∈ room.players, pp.2.ready = true) →
      handle_start_game st sid gameState hands =
        ({ st with rooms := upsert st.rooms session.roomId
                     { room with
                         status := Status.playing
                         gameState := some gameState
                         hands := some hands } },
         [Ev.game_started session.roomId gameState hands room.players])) := by
  refine ⟨?_, ?_, ?_, ?_⟩
  · intro hpos
    simp only [handle_start_game, hs, hl]
    rw [if_pos hpos]
  · intro hpos hlen
    have hne : ¬(session.position ≠ 0) := by simp [hpos]
    have hne4 : room.players.length ≠ 4 := by omega
    simp only [handle_start_game, hs, hl]
    rw [if_neg hne, if_pos hne4]
  · intro hpos hlen hnr
    have hne : ¬(session.position ≠ 0) := by simp [hpos]
    have hne4 : ¬(room.players.length ≠ 4) := by simp [hlen]
    have hall : room.players.all (fun pp => pp.2.ready) = false := by
      rcases hnr with ⟨pp, hmem, hready⟩
      rw [List.all_eq_false]
      exact ⟨pp, hmem, by simp [hready]⟩
    simp only [handle_start_game, hs, hl]
    rw [if_neg hne, if_neg hne4]
    simp [hall]
  · intro hpos hlen hr
    have hne : ¬(session.position ≠ 0) := by simp [hpos]
    have hne4 : ¬(room.players.length ≠ 4) := by simp [hlen]
    have hall : room.players.all (fun pp => pp.2.ready) = true := by
      rw [List.all_eq_true]
      intro pp hmem
      simp [hr pp hmem]
    simp only [handle_start_game, hs, hl]
    rw [if_neg hne, if_neg hne4]
    simp [hall]

def c9Slot (sid player_name : String) : PlayerSlot :=
  { oderId := sid, name := player_name, ready := true, connected := true }

def c9Room : Room Nat :=
  { host := "H", created := 0, status := Status.waiting, playerCount := 4,
    players := [(0, c9Slot "H" "Host"), (1, c9Slot "B" "Bea"),
                (2, c9Slot "C" "Cy"), (3, c9Slot "D" "Di")] }

def c9State : ServerState Nat :=
  { rooms := [("ROOM01", c9Room)],
    player_sessions := [("H", { roomId := "ROOM01", position := 0 })] }

/-- Witness for C9: the host starting a full, all-ready room succeeds and
stores/broadcasts the payloads. -/
theorem claim_C9_witness :
    handle_start_game c9State "H" 7 8 =
      ({ c9State with rooms := upsert c9State.rooms "ROOM01"
                        { c9Room with
                            status := Status.playing
                            gameState := some 7
                            hands := some 8 } },
       [Ev.game_started "ROOM01" 7 8 c9Room.players]) := by
  have h := claim_C9 c9State "H" 7 8 { roomId := "ROOM01", position := 0 }
    c9Room (by decide) (by decide)
  exact h.2.2.2 rfl (by decide) (by decide)

/-- Claim C10: start_game performs no room-status check.  For every room
whose status is already `playing` (or `confirming`) that still has 4
occupied slots all ready, a further start_game call by the host succeeds
again: it overwrites the room's stored gameState and hands with the newly
supplied payloads and re-broadcasts game_started to the whole room; no
wrong-status error is emitted. -/
theorem claim_C10 {β : Type} (st : ServerState β) (sid : String)
    (gameState hands : β) (session : Session) (room : Room β)
    (hs : lookupA st.player_sessions sid = some session)
    (hpos : session.position = 0)
    (hl : lookupA st.rooms session.roomId = some room)
    (hstatus : room.status = Status.playing ∨ room.status = Status.confirming)
    (hlen : room.players.length = 4)
    (hr : ∀ pp ∈ room.players, pp.2.ready = true) :
    handle_start_game st sid gameState hands =
      ({ st with rooms := upsert st.rooms session.roomId
                   { room with
                       status := Status.playing
                       gameState := some gameState
                       hands := some hands } },
       [Ev.game_started session.roomId gameState hands room.players]) := by
  have hne : ¬(session.position ≠ 0) := by simp [hpos]
  have hne4 : ¬(room.players.length ≠ 4) := by simp [hlen]
  have hall : room.players.all (fun pp => pp.2.ready) = true := by
    rw [List.all_eq_true]
    intro pp hmem
    simp [hr pp hmem]
  simp only [handle_start_game, hs, hl]
  rw [if_neg hne, if_neg hne4]
  simp [hall]

def c10Room : Room Nat :=
  { host := "H", created := 0, status := Status.playing, playerCount := 4,
    players := [(0, c9Slot "H" "Host"), (1, c9Slot "B" "Bea"),
                (2, c9Slot "C" "Cy"), (3, c9Slot "D" "Di")],
    gameState := some 1, hands := some 2 }

def c10State : ServerState Nat :=
  { rooms := [("ROOM02", c10Room)],
    player_sessions := [("H", { roomId := "ROOM02", position := 0 })] }

/-- Witness for C10: re-calling start_game on a room already `playing`
overwrites the stored payloads (1, 2) with the new ones (7, 8) and
re-broadcasts. -/
theorem claim_C10_witness :
    handle_start_game c10State "H" 7 8 =
      ({ c10State with rooms := upsert c10State.rooms "ROOM02"
                         { c10Room with
                             status := Status.playing
                             gameState := some 7
                             hands := some 8 } },
       [Ev.game_started "ROOM02" 7 8 c10Room.players]) :=
  claim_C10 c10State "H" 7 8 { roomId := "ROOM02", position := 0 } c10Room
    (by decide) rfl (by decide) (Or.inl rfl) (by decide) (by decide)

/-! ### Claim C1: join_room on a `playing` room

The spec describes reconnection-as-slot-replacement and spectator
admission for `playing` rooms, but `handle_join_room` rejects every room
whose status is not `waiting` with 'Game already in progress' (server.py
line 828-830); no replacement or spectator code exists in the server. -/

def c1Room : Room Nat :=
  { host := "A", created := 0, status := Status.playing, playerCount := 2,
    players := [(0, { oderId := "A", name := "Alice", ready := true,
                      connected := true }),
                (1, { oderId := "B", name := "Bob", ready := true,
                      connected := false })],
    gameState := some 5, hands := some 9 }

def c1State : ServerState Nat :=
  { rooms := [("ABCDEF", c1Room)],
    player_sessions := [("A", { roomId := "ABCDEF", position := 0 })] }

/-- Counterexample to C1 as stated: a room in `playing` status with a
disconnected slot at position 1; a join_room with its code errors with
'Game already in progress' and changes nothing — the joiner neither
replaces the disconnected slot nor is admitted as a spectator. -/
theorem claim_C1_counterexample :
    c1Room.status = Status.playing ∧
    (∃ pp ∈ c1Room.players, pp.2.connected = false) ∧
    handle_join_room c1State "C" "ABCDEF" "Carol" =
      (c1State, [Ev.error "Game already in progress"]) := by decide

/-- Claim C1 amended: for every room whose status is `playing`, a join_room
with that room's code always errors with 'Game already in progress' and
leaves the whole server state unchanged: there is no slot replacement, no
hand inheritance, and no spectator admission. -/
theorem claim_C1_amended {β : Type} (st : ServerState β)
    (sid roomIdRaw player_name : String) (room : Room β)
    (hl : lookupA st.rooms (normalizeRoomId roomIdRaw) = some room)
    (hstatus : room.status = Status.playing) :
    handle_join_room st sid roomIdRaw player_name =
      (st, [Ev.error "Game already in progress"]) := by
  simp only [handle_join_room, hl]
  rw [if_pos (by rw [hstatus]; decide)]

/-- Witness for the amended C1 at the concrete playing room. -/
theorem claim_C1_amended_witness :
    handle_join_room c1State "C" "ABCDEF" "Carol" =
      (c1State, [Ev.error "Game already in progress"]) :=
  claim_C1_amended c1State "C" "ABCDEF" "Carol" c1Room (by decide) rfl

/-! ### Claim C5: leaving vs disconnecting during `playing`

`handle_disconnect` keeps the slot of a playing room and marks it
`connected:false` (server.py lines 751-760), but `handle_leave_room`
deletes the slot in every status, `playing` included (lines 889-890): only
the broadcast reason differs. -/

def c5Room : Room Nat :=
  { host := "A", created := 0, status := Status.playing, playerCount := 2,
    players := [(0, { oderId := "A", name := "Alice", ready := true,
                      connected := true }),
                (1, { oderId := "B", name := "Bob", ready := true,
                      connected := true })],
    gameState := some 3, hands := some 4 }

def c5State : ServerState Nat :=
  { rooms := [("ROOMAB", c5Room)],
    player_sessions := [("A", { roomId := "ROOMAB", position := 0 }),
                        ("B", { roomId := "ROOMAB", position := 1 })],
    socket_memberships := [("A", "ROOMAB"), ("B", "ROOMAB")] }

/-- Counterexample to C5 as stated: in a `playing` room, leave_room does
not keep the slot with connected=false — it deletes the slot outright (the
room survives with only player 0, and position 1 is gone), broadcasting
reason `left`. -/
theorem claim_C5_counterexample :
    c5Room.status = Status.playing ∧
    ((lookupA (handle_leave_room c5State "B").1.rooms "ROOMAB").map
        (fun r => lookupA r.players 1)) = some none ∧
    (handle_leave_room c5State "B").2 =
      [Ev.player_left_game "ROOMAB" 1 "Bob" "left"
        [(0, { oderId := "A", name := "Alice", ready := true, connected := true })],
       Ev.left_room] := by decide

/-- Claim C5 amended: in a `playing` room, a disconnect keeps the slot,
marking it connected=false and broadcasting `player_left_game` with reason
`disconnected`; but leave_room removes the slot entirely (recomputing
playerCount, deleting the room when it empties) and, when the room
survives, broadcasts `player_left_game` with reason `left`. -/
theorem claim_C5_amended {β : Type} (st : ServerState β) (sid : String)
    (session : Session) (room : Room β) (pl : PlayerSlot)
    (hs : lookupA st.player_sessions sid = some session)
    (hgt : session.gameType = GameType.dhihaei)
    (hl : lookupA st.rooms session.roomId = some room)
    (hpl : lookupA room.players session.position = some pl)
    (hstatus : room.status = Status.playing) :
    (lookupA (handle_disconnect st sid).1.rooms session.roomId =
        some { room with players := upsert room.players session.position
                                      { pl with connected := false } } ∧
      lookupA (upsert room.players session.position { pl with connected := false })
          session.position = some { pl with connected := false } ∧
      Ev.player_left_game session.roomId session.position pl.name "disconnected"
          (upsert room.players session.position { pl with connected := false })
        ∈ (handle_disconnect st sid).2) ∧
    (lookupA (eraseA room.players session.position) session.position = none ∧
      ((eraseA room.players session.position).length ≠ 0 →
        lookupA (handle_leave_room st sid).1.rooms session.roomId =
            some { room with
                     players := eraseA room.players session.position
                     playerCount := (eraseA room.players session.position).length } ∧
          (handle_leave_room st sid).2 =
            [Ev.player_left_game session.roomId session.position pl.name "left"
              (eraseA room.players session.position),
             Ev.left_room]) ∧
      ((eraseA room.players session.position).length = 0 →
        lookupA (handle_leave_room st sid).1.rooms session.roomId = none ∧
          (handle_leave_room st sid).2 = [Ev.left_room])) := by
  have hnotdigu : ¬(session.gameType = GameType.digu ∧
      (lookupA st.digu_rooms session.roomId).isSome) := by
    rintro ⟨h1, h2⟩
    rw [hgt] at h1
    cases h1
  constructor
  · simp only [handle_disconnect, hs]
    rw [if_neg hnotdigu]
    simp only [disconnect_cleanup_dhihaei, hl, hpl]
    rw [if_pos (by simp [hl]), if_pos hstatus]
    refine ⟨?_, ?_, ?_⟩
    · exact lookupA_upsert_self _ _ _
    · exact lookupA_upsert_self _ _ _
    · simp
  · refine ⟨lookupA_eraseA_self _ _, ?_, ?_⟩
    · intro hne
      simp only [handle_leave_room, hs, hl, hpl]
      rw [if_neg hne, if_pos hstatus]
      exact ⟨lookupA_upsert_self _ _ _, rfl⟩
    · intro hzero
      simp only [handle_leave_room, hs, hl, hpl]
      rw [if_pos hzero]
      exact ⟨lookupA_eraseA_self _ _, rfl⟩

/-- Witness for the amended C5: Bob disconnecting from the concrete playing
room keeps his slot as connected=false; Bob leaving removes it. -/
theorem claim_C5_amended_witness :
    lookupA (handle_disconnect c5State "B").1.rooms "ROOMAB" =
        some { c5Room with players := upsert c5Room.players 1
                                        { oderId := "B", name := "Bob",
                                          ready := true, connected := false } } ∧
    lookupA (handle_leave_room c5State "B").1.rooms "ROOMAB" =
        some { c5Room with
                 players := eraseA c5Room.players 1
                 playerCount := (eraseA c5Room.players 1).length } := by
  have h := claim_C5_amended c5State "B" { roomId := "ROOMAB", position := 1 }
    c5Room { oderId := "B", name := "Bob", ready := true, connected := true }
    (by decide) rfl (by decide) (by decide) rfl
  exact ⟨h.1.1, (h.2.2.1 (by decide)).1⟩

/-! ### Claim C7: room code generation

`generate_room_code` draws 6 characters from the 32-character alphabet and
retries while the candidate is a key of the Dhiha Ei `rooms` dict — and of
nothing else.  `handle_create_digu_room` (server.py line 1426) places the
code into `digu_rooms`, whose existing ids are never consulted, so a fresh
code can collide with (and overwrite) an existing Digu room. -/

def c7Room : Room Nat :=
  { host := "Z", created := 0, status := Status.waiting, playerCount := 1,
    maxPlayers := some 4, gameTypeMeta := some GameType.digu,
    players := [(0, { oderId := "Z", name := "Zoe", ready := false,
                      connected := true })] }

def c7State : ServerState Nat :=
  { digu_rooms := [("AAAAAA", c7Room)],
    player_sessions := [("Z", { roomId := "AAAAAA", position := 0,
                                gameType := GameType.digu })] }

/-- Counterexample to C7 as stated: with no Dhiha Ei rooms and an existing
Digu room "AAAAAA", the generator (which only consults the Dhiha Ei store)
happily returns "AAAAAA" on the first draw — a code equal to an existing id
of the very store the Digu call site will place it into; creating the new
Digu room with it overwrites the old room (Zoe's room is gone). -/
theorem claim_C7_counterexample :
    generate_room_code (keysA c7State.rooms) [fun j => 0] = some "AAAAAA" ∧
    "AAAAAA" ∈ keysA c7State.digu_rooms ∧
    lookupA (handle_create_digu_room c7State "B" "Bella" 4 1 "AAAAAA").1.digu_rooms
        "AAAAAA" ≠ some c7Room ∧
    (handle_create_digu_room c7State "B" "Bella" 4 1 "AAAAAA").1.digu_rooms.length
      = 1 := by decide

/-- Claim C7 amended: every code returned by `generate_room_code` is
exactly 6 characters drawn from the fixed alphabet
ABCDEFGHJKLMNPQRSTUVWXYZ23456789 and, at the moment of generation, differs
from every Dhiha Ei room id in the `existing` key set it was given — but
only from those: at the Digu call sites the code is not checked against the
Digu store it is placed into. -/
theorem claim_C7_amended (existing : List String)
    (draws : List (Fin 6 → Fin 32)) (c : String)
    (h : generate_room_code existing draws = some c) :
    c.length = 6 ∧ (∀ ch ∈ c.data, ch ∈ roomCodeChars) ∧ c ∉ existing := by
  induction draws with
  | nil => simp [generate_room_code] at h
  | cons d rest ih =>
    simp only [generate_room_code] at h
    by_cases hm : codeOfDraw d ∈ existing
    · rw [if_pos hm] at h
      exact ih h
    · rw [if_neg hm] at h
      injection h with h
      subst h
      refine ⟨by simp [codeOfDraw, String.length], ?_, hm⟩
      intro ch hch
      simp only [codeOfDraw] at hch
      rcases List.mem_map.mp hch with ⟨i, hi, heq⟩
      rw [heq.symm]
      exact List.get_mem _ _ _

/-- Witness for the amended C7: the first fresh draw after one collision. -/
theorem claim_C7_amended_witness :
    "AAAAAB".length = 6 ∧
    (∀ ch ∈ "AAAAAB".data, ch ∈ roomCodeChars) ∧
    "AAAAAB" ∉ ["AAAAAA"] := by
  have hgen : generate_room_code ["AAAAAA"]
      [fun j => 0, fun j => if j = 5 then 1 else 0] = some "AAAAAB" := by decide
  exact claim_C7_amended ["AAAAAA"] _ _ hgen

/-! ### Claim C6: queue-membership invariants

The claimed invariant fails in reachable states: `handle_create_room` does
not dequeue the caller, and the two game types' join_queue handlers only
deduplicate their own queue and only reject callers with a session — so a
connection can be queued and bound at once, and can sit in both queues. -/

theorem remove_from_queue_countP (q : List QueueEntry) (sid : String) :
    (remove_from_queue q sid).countP (fun e => decide (e.sid = sid)) = 0 := by
  rw [List.countP_eq_zero]
  intro e he
  have hmem := List.of_mem_filter he
  simpa using hmem

theorem remove_from_digu_queue_countP (q : List QueueEntry) (sid : String) :
    (remove_from_digu_queue q sid).countP (fun e => decide (e.sid = sid)) = 0 := by
  rw [List.countP_eq_zero]
  intro e he
  have hmem := List.of_mem_filter he
  simpa using hmem

/-- Counterexample to C6 as stated: from the empty state, `join_queue(A)`
then `create_room(A)` leaves A both queued and bound in the session
registry; and `join_queue(A)` then `join_digu_queue(A)` leaves A in both
game types' queues at once. -/
theorem claim_C6_counterexample :
    (let s2 := (handle_create_room
        (handle_join_queue ({} : ServerState Nat) "A" "Alice" 0 "QQQQQQ"
          [0, 1, 2, 3]).1 "A" "Alice" 1 "RRRRRR").1
     "A" ∈ s2.matchmaking_queue.map QueueEntry.sid ∧
       (lookupA s2.player_sessions "A").isSome) ∧
    (let s3 := (handle_join_digu_queue
        (handle_join_queue ({} : ServerState Nat) "A" "Alice" 0 "QQQQQQ"
          [0, 1, 2, 3]).1 "A" "Alice" 2 "DDDDDD").1
     "A" ∈ s3.matchmaking_queue.map QueueEntry.sid ∧
       "A" ∈ s3.digu_matchmaking_queue.map QueueEntry.sid) := by decide

/-- Claim C6 amended: what the queue handlers themselves do guarantee: a
join_queue (resp. join_digu_queue) call first removes every entry of the
caller from its own queue and refuses callers bound in the session
registry, so right after the call the caller occurs at most once in that
queue, and not at all when it was bound.  No cross-queue or queue-vs-room
exclusion holds (see the counterexample). -/
theorem claim_C6_amended {β : Type} (st : ServerState β)
    (sid player_name : String) (now : Nat) (room_id : String)
    (positions : List Nat) :
    (List.countP (fun e => decide (e.sid = sid))
        (handle_join_queue st sid player_name now room_id positions).1.matchmaking_queue
      ≤ 1) ∧
    ((lookupA st.player_sessions sid).isSome →
      ∀ e ∈ (handle_join_queue st sid player_name now room_id positions).1.matchmaking_queue,
        e.sid ≠ sid) ∧
    (List.countP (fun e => decide (e.sid = sid))
        (handle_join_digu_queue st sid player_name now room_id).1.digu_matchmaking_queue
      ≤ 1) ∧
    ((lookupA st.player_sessions sid).isSome →
      ∀ e ∈ (handle_join_digu_queue st sid player_name now room_id).1.digu_matchmaking_queue,
        e.sid ≠ sid) := by
  have hq2 : List.countP (fun e => decide (e.sid = sid))
      (remove_from_queue st.matchmaking_queue sid ++
        [{ sid := sid, name := player_name, joinedAt := now }]) = 1 := by
    rw [List.countP_append, remove_from_queue_countP]
    simp [List.countP_cons]
  have hdq2 : List.countP (fun e => decide (e.sid = sid))
      (remove_from_digu_queue st.digu_matchmaking_queue sid ++
        [{ sid := sid, name := player_name, joinedAt := now }]) = 1 := by
    rw [List.countP_append, remove_from_digu_queue_countP]
    simp [List.countP_cons]
  refine ⟨?_, ?_, ?_, ?_⟩
  · simp only [handle_join_queue]
    split
    · simp [remove_from_queue_countP]
    · simp only [check_and_start_match]
      split
      · have hsub := (List.drop_sublist 4
            (remove_from_queue st.matchmaking_queue sid ++
              [{ sid := sid, name := player_name, joinedAt := now }])).countP_le
          (p := fun e => decide (e.sid = sid))
        dsimp only
        omega
      · dsimp only
        omega
  · intro hsome
    simp only [handle_join_queue]
    rw [if_pos hsome]
    intro e he heq
    have hmem := List.of_mem_filter he
    simp [heq] at hmem
  · simp only [handle_join_digu_queue]
    split
    · simp [remove_from_digu_queue_countP]
    · simp only [check_and_start_digu_match]
      split
      · have hsub := (List.drop_sublist 4
            (remove_from_digu_queue st.digu_matchmaking_queue sid ++
              [{ sid := sid, name := player_name, joinedAt := now }])).countP_le
          (p := fun e => decide (e.sid = sid))
        dsimp only
        omega
      · dsimp only
        omega
  · intro hsome
    simp only [handle_join_digu_queue]
    rw [if_pos hsome]
    intro e he heq
    have hmem := List.of_mem_filter he
    simp [heq] at hmem

/-- Witness for the amended C6 at a concrete bound caller: the queue stays
free of H. -/
theorem claim_C6_amended_witness :
    (List.countP (fun e => decide (e.sid = "H"))
        (handle_join_queue c9State "H" "Host" 0 "QQQQQQ" [0, 1, 2, 3]).1.matchmaking_queue
      ≤ 1) ∧
    (∀ e ∈ (handle_join_queue c9State "H" "Host" 0 "QQQQQQ" [0, 1, 2, 3]).1.matchmaking_queue,
        e.sid ≠ "H") := by
  have h := claim_C6_amended c9State "H" "Host" 0 "QQQQQQ" [0, 1, 2, 3]
  exact ⟨h.1, h.2.1 (by decide)⟩

/-! ### Claim C3: match formation

`check_and_start_match` (Dhiha Ei) behaves as the claim says; but
`check_and_start_digu_match` creates its room in `waiting` status with no
confirmation deadline, auto-ready players, and positions 0..3 assigned in
dequeue order without a shuffle — so the claim's "for every game type"
generalisation fails. -/

theorem lookupA_foldl_upsert_ne {γ α δ : Type} [DecidableEq α]
    (pairs : List γ) (key : γ → α) (val : γ → δ) :
    ∀ (init : List (α × δ)) (k : α), (∀ p ∈ pairs, key p ≠ k) →
      lookupA (pairs.foldl (fun s ep => upsert s (key ep) (val ep)) init) k =
        lookupA init k := by
  induction pairs with
  | nil => intro init k h; rfl
  | cons q rest ih =>
    intro init k h
    rw [List.foldl_cons]
    rw [ih (upsert init (key q) (val q)) k
      (fun p hp => h p (List.mem_cons_of_mem q hp))]
    exact lookupA_upsert_ne init (key q) k (val q)
      (fun he => (h q (List.mem_cons_self q rest)) he.symm)

theorem lookupA_foldl_upsert_mem {γ α δ : Type} [DecidableEq α]
    (pairs : List γ) (key : γ → α) (val : γ → δ) :
    ∀ (init : List (α × δ)), (pairs.map key).Nodup →
      ∀ p ∈ pairs,
        lookupA (pairs.foldl (fun s ep => upsert s (key ep) (val ep)) init)
          (key p) = some (val p) := by
  induction pairs with
  | nil => intro init hnd p hp; simp at hp
  | cons q rest ih =>
    intro init hnd p hp
    simp only [List.map_cons, List.nodup_cons] at hnd
    rcases List.mem_cons.mp hp with he | hm
    · subst he
      rw [List.foldl_cons]
      have hne : ∀ p2 ∈ rest, key p2 ≠ key p :=
        fun p2 hp2 heq => hnd.1 (heq ▸ List.mem_map_of_mem key hp2)
      rw [lookupA_foldl_upsert_ne rest key val
        (upsert init (key p) (val p)) (key p) hne]
      exact lookupA_upsert_self init (key p) (val p)
    · rw [List.foldl_cons]
      exact ih (upsert init (key q) (val q)) hnd.2 p hm

def c3DiguQueue : List QueueEntry :=
  [{ sid := "A", name := "Alice", joinedAt := 0 },
   { sid := "B", name := "Bob", joinedAt := 1 },
   { sid := "C", name := "Cara", joinedAt := 2 },
   { sid := "D", name := "Dan", joinedAt := 3 }]

def c3DiguState : ServerState Nat :=
  { digu_matchmaking_queue := c3DiguQueue }

/-- Counterexample to C3 as stated: when the Digu queue reaches 4 a match
is formed, but the new room's status is `waiting`, not `confirming`, it
has no `confirmDeadline` of now+30 (none is set at all), and the occupied
positions are 0,1,2,3 in dequeue order — `random.shuffle` is never
involved. -/
theorem claim_C3_counterexample :
    c3DiguState.digu_matchmaking_queue.length = 4 ∧
    ((lookupA (check_and_start_digu_match c3DiguState 100 "DIGU01").1.digu_rooms
        "DIGU01").map Room.status) = some Status.waiting ∧
    ((lookupA (check_and_start_digu_match c3DiguState 100 "DIGU01").1.digu_rooms
        "DIGU01").map Room.confirmDeadline) = some none ∧
    ((lookupA (check_and_start_digu_match c3DiguState 100 "DIGU01").1.digu_rooms
        "DIGU01").map (fun r => keysA r.players)) = some [0, 1, 2, 3] := by decide

/-- Claim C3 amended.  Dhiha Ei queue (as claimed): when the queue holds at
least 4 entries, the first 4 are dequeued FIFO (the queue empties when it
held exactly 4), a room is created under the fresh code with status
`confirming`, isQuickMatch, playerCount 4 and a confirmation deadline of
now+30, all 4 connections are bound in the session registry to that room
at their assigned position, and the assigned positions are exactly the
shuffled permutation of {0,1,2,3} produced by `random.shuffle`.  Digu
queue (corrected): the first 4 are dequeued FIFO the same way, but the
room is created in `waiting` status with isQuickMatch, no confirmation
deadline, auto-ready players, and positions 0..3 in dequeue order. -/
theorem claim_C3_amended {β : Type} (st : ServerState β) (now : Nat)
    (code dcode : String) (positions : List Nat)
    (hperm : List.Perm positions [0, 1, 2, 3])
    (hlen : st.matchmaking_queue.length ≥ 4)
    (hsids : ((st.matchmaking_queue.take 4).map QueueEntry.sid).Nodup)
    (hdlen : st.digu_matchmaking_queue.length ≥ 4)
    (hdsids : ((st.digu_matchmaking_queue.take 4).map QueueEntry.sid).Nodup) :
    ((check_and_start_match st now code positions).1.matchmaking_queue =
        st.matchmaking_queue.drop 4) ∧
    (st.matchmaking_queue.length = 4 →
      (check_and_start_match st now code positions).1.matchmaking_queue = []) ∧
    (((lookupA (check_and_start_match st now code positions).1.rooms code).map
        Room.status) = some Status.confirming) ∧
    (((lookupA (check_and_start_match st now code positions).1.rooms code).map
        Room.isQuickMatch) = some true) ∧
    (((lookupA (check_and_start_match st now code positions).1.rooms code).map
        Room.confirmDeadline) = some (some (now + 30))) ∧
    (((lookupA (check_and_start_match st now code positions).1.rooms code).map
        Room.playerCount) = some 4) ∧
    (((lookupA (check_and_start_match st now code positions).1.rooms code).map
        (fun r => keysA r.players)) = some positions) ∧
    (∀ ep ∈ (st.matchmaking_queue.take 4).zip positions,
      lookupA (check_and_start_match st now code positions).1.player_sessions
          ep.1.sid =
        some { roomId := code, position := ep.2,
               gameType := GameType.dhihaei }) ∧
    ((check_and_start_digu_match st now dcode).1.digu_matchmaking_queue =
        st.digu_matchmaking_queue.drop 4) ∧
    (((lookupA (check_and_start_digu_match st now dcode).1.digu_rooms dcode).map
        Room.status) = some Status.waiting) ∧
    (((lookupA (check_and_start_digu_match st now dcode).1.digu_rooms dcode).map
        Room.isQuickMatch) = some true) ∧
    (((lookupA (check_and_start_digu_match st now dcode).1.digu_rooms dcode).map
        Room.confirmDeadline) = some none) ∧
    (((lookupA (check_and_start_digu_match st now dcode).1.digu_rooms dcode).map
        (fun r => keysA r.players)) = some (List.range 4)) ∧
    (((lookupA (check_and_start_digu_match st now dcode).1.digu_rooms dcode).map
        (fun r => r.players.all (fun pp => pp.2.ready))) = some true) ∧
    (∀ ip ∈ (st.digu_matchmaking_queue.take 4).enum,
      lookupA (check_and_start_digu_match st now dcode).1.player_sessions
          ip.2.sid =
        some { roomId := dcode, position := ip.1,
               gameType := GameType.digu }) := by
  have hq4 : (st.matchmaking_queue.take 4).length = 4 := by
    rw [List.length_take]; omega
  have hplen : positions.length = 4 := hperm.length_eq
  have hsnd : ((st.matchmaking_queue.take 4).zip positions).map Prod.snd
      = positions := List.map_snd_zip _ _ (by omega)
  have hfst : ((st.matchmaking_queue.take 4).zip positions).map Prod.fst
      = st.matchmaking_queue.take 4 := List.map_fst_zip _ _ (by omega)
  have hndpos : positions.Nodup := hperm.nodup_iff.mpr (by decide)
  have hnd : (((st.matchmaking_queue.take 4).zip positions).map
      (fun ep => ep.2)).Nodup := by
    have hx : (((st.matchmaking_queue.take 4).zip positions).map
        Prod.snd).Nodup := by rw [hsnd]; exact hndpos
    exact hx
  have hndsid : (((st.matchmaking_queue.take 4).zip positions).map
      (fun ep => ep.1.sid)).Nodup := by
    have hx : ((((st.matchmaking_queue.take 4).zip positions).map
        Prod.fst).map QueueEntry.sid).Nodup := by rw [hfst]; exact hsids
    rw [List.map_map] at hx
    exact hx
  have hdq4 : (st.digu_matchmaking_queue.take 4).length = 4 := by
    rw [List.length_take]; omega
  have hdfst : (st.digu_matchmaking_queue.take 4).enum.map Prod.fst
      = List.range 4 := by rw [List.enum_map_fst, hdq4]
  have hdnd : ((st.digu_matchmaking_queue.take 4).enum.map
      (fun ip => ip.1)).Nodup := by
    have hx : ((st.digu_matchmaking_queue.take 4).enum.map Prod.fst).Nodup := by
      rw [hdfst]; exact List.nodup_range 4
    exact hx
  have hdndsid : ((st.digu_matchmaking_queue.take 4).enum.map
      (fun ip => ip.2.sid)).Nodup := by
    have hx : (((st.digu_matchmaking_queue.take 4).enum.map
        Prod.snd).map QueueEntry.sid).Nodup := by
      rw [List.enum_map_snd]; exact hdsids
    rw [List.map_map] at hx
    exact hx
  have hpl := foldl_upsert_build ((st.matchmaking_queue.take 4).zip positions)
    (fun ep => ep.2) (fun ep => formationSlot ep.1) hnd
  have hdpl := foldl_upsert_build ((st.digu_matchmaking_queue.take 4).enum)
    (fun ip => ip.1) (fun ip => diguFormationSlot ip.2) hdnd
  refine ⟨?_, ?_, ?_, ?_, ?_, ?_, ?_, ?_, ?_, ?_, ?_, ?_, ?_, ?_, ?_⟩
  · simp only [check_and_start_match]
    rw [if_pos hlen]
  · intro h4
    simp only [check_and_start_match]
    rw [if_pos hlen]
    dsimp only
    exact List.drop_eq_nil_of_le (by omega)
  · simp only [check_and_start_match]
    rw [if_pos hlen]
    dsimp only
    rw [lookupA_upsert_self]
    rfl
  · simp only [check_and_start_match]
    rw [if_pos hlen]
    dsimp only
    rw [lookupA_upsert_self]
    rfl
  · simp only [check_and_start_match]
    rw [if_pos hlen]
    dsimp only
    rw [lookupA_upsert_self]
    rfl
  · simp only [check_and_start_match]
    rw [if_pos hlen]
    dsimp only
    rw [lookupA_upsert_self]
    rfl
  · simp only [check_and_start_match]
    rw [if_pos hlen]
    dsimp only
    rw [lookupA_upsert_self]
    simp only [Option.map_some']
    have hk := foldl_upsert_build_keysA
      ((st.matchmaking_queue.take 4).zip positions)
      (fun ep => ep.2) (fun ep => formationSlot ep.1) hnd
    exact congrArg some (hk.trans hsnd)
  · intro ep hep
    simp only [check_and_start_match]
    rw [if_pos hlen]
    dsimp only
    exact lookupA_foldl_upsert_mem _ (fun ep => ep.1.sid)
      (fun ep => { roomId := code, position := ep.2,
                   gameType := GameType.dhihaei })
      st.player_sessions hndsid ep hep
  · simp only [check_and_start_digu_match]
    rw [if_pos hdlen]
  · simp only [check_and_start_digu_match]
    rw [if_pos hdlen]
    dsimp only
    rw [lookupA_upsert_self]
    rfl
  · simp only [check_and_start_digu_match]
    rw [if_pos hdlen]
    dsimp only
    rw [lookupA_upsert_self]
    rfl
  · simp only [check_and_start_digu_match]
    rw [if_pos hdlen]
    dsimp only
    rw [lookupA_upsert_self]
    rfl
  · simp only [check_and_start_digu_match]
    rw [if_pos hdlen]
    dsimp only
    rw [lookupA_upsert_self]
    simp only [Option.map_some']
    have hdk := foldl_upsert_build_keysA
      ((st.digu_matchmaking_queue.take 4).enum)
      (fun ip => ip.1) (fun ip => diguFormationSlot ip.2) hdnd
    exact congrArg some (hdk.trans hdfst)
  · simp only [check_and_start_digu_match]
    rw [if_pos hdlen]
    dsimp only
    rw [lookupA_upsert_self]
    simp only [Option.map_some']
    rw [hdpl]
    refine congrArg some ?_
    rw [List.all_eq_true]
    intro pp hpp
    rcases List.mem_map.mp hpp with ⟨ip, hip, heq⟩
    subst heq
    rfl
  · intro ip hip
    simp only [check_and_start_digu_match]
    rw [if_pos hdlen]
    dsimp only
    exact lookupA_foldl_upsert_mem _ (fun ip => ip.2.sid)
      (fun ip => { roomId := dcode, position := ip.1,
                   gameType := GameType.digu })
      st.player_sessions hdndsid ip hip

def c3Queue : List QueueEntry :=
  [{ sid := "A", name := "Alice", joinedAt := 0 },
   { sid := "B", name := "Bob", joinedAt := 1 },
   { sid := "C", name := "Cara", joinedAt := 2 },
   { sid := "D", name := "Dan", joinedAt := 3 }]

def c3State : ServerState Nat :=
  { matchmaking_queue := c3Queue, digu_matchmaking_queue := c3DiguQueue }

/-- Witness for the amended C3 at a concrete 4-entry queue and the shuffle
[2, 0, 3, 1]. -/
theorem claim_C3_amended_witness :
    ((check_and_start_match c3State 50 "DHIHA1" [2, 0, 3, 1]).1.matchmaking_queue
      = []) ∧
    (((lookupA (check_and_start_match c3State 50 "DHIHA1" [2, 0, 3, 1]).1.rooms
        "DHIHA1").map Room.status) = some Status.confirming) ∧
    (((lookupA (check_and_start_match c3State 50 "DHIHA1" [2, 0, 3, 1]).1.rooms
        "DHIHA1").map (fun r => keysA r.players)) = some [2, 0, 3, 1]) ∧
    (((lookupA (check_and_start_digu_match c3State 50 "DIGU02").1.digu_rooms
        "DIGU02").map Room.status) = some Status.waiting) := by
  have h := claim_C3_amended c3State 50 "DHIHA1" "DIGU02" [2, 0, 3, 1]
    (by decide) (by decide) (by decide) (by decide) (by decide)
  exact ⟨h.2.1 (by decide), h.2.2.1, h.2.2.2.2.2.2.1, h.2.2.2.2.2.2.2.2.2.1⟩

/-! ### Claim C8: swap_player -/

theorem lookupA_map_val {α δ δ2 : Type} [DecidableEq α] (l : List (α × δ))
    (f : δ → δ2) (k : α) (v : δ) (hk : lookupA l k = some v) :
    lookupA (l.map (fun kv => (kv.1, f kv.2))) k = some (f v) := by
  induction l with
  | nil => simp at hk
  | cons kv rest ih =>
    simp only [List.map_cons, lookupA_cons] at hk ⊢
    by_cases hkk : kv.1 = k
    · rw [if_pos hkk] at hk ⊢
      injection hk with hk
      rw [hk]
    · rw [if_neg hkk] at hk ⊢
      exact ih hk

theorem lookupA_updateFirstSession (l : List (String × Session))
    (room_id : String) (fromPos toPos : Nat) (k : String) (s : Session)
    (hk : lookupA l k = some s)
    (hcond : s.roomId = room_id ∧ s.position = fromPos)
    (huniq : ∀ ks ∈ l, ks.2.roomId = room_id → ks.2.position = fromPos →
      ks.1 = k) :
    lookupA (updateFirstSession l room_id fromPos toPos) k =
      some { s with position := toPos } := by
  induction l with
  | nil => simp at hk
  | cons ks rest ih =>
    cases ks with
    | mk k0 s0 =>
      by_cases hc : s0.roomId = room_id ∧ s0.position = fromPos
      · have hkk : k0 = k :=
          huniq (k0, s0) (List.mem_cons_self _ _) hc.1 hc.2
        subst hkk
        rw [lookupA_cons, if_pos rfl] at hk
        injection hk with hk
        subst hk
        simp [updateFirstSession, if_pos hc]
      · simp only [updateFirstSession, if_neg hc, lookupA_cons]
        by_cases hkk : k0 = k
        · subst hkk
          rw [lookupA_cons, if_pos rfl] at hk
          injection hk with hk
          subst hk
          exact absurd hcond hc
        · rw [lookupA_cons, if_neg hkk] at hk
          rw [if_neg hkk]
          exact ih hk (fun ks2 hm => huniq ks2 (List.mem_cons_of_mem _ hm))

theorem swapTargets_ne (from_position : Nat) :
    (swapTargets from_position).headD 0 ≠ from_position := by
  unfold swapTargets
  by_cases hc : from_position = 0 ∨ from_position = 2
  · rw [if_pos hc]
    rcases hc with h | h <;> simp [h]
  · rw [if_neg hc]
    simp only [List.headD_cons]
    intro he
    exact hc (Or.inl he.symm)

/-- Claim C8: for every room and caller, swap_player(fromPosition) fails
with a not-host error when the caller's session position is not 0, and
with a no-player-in-slot error when fromPosition is unoccupied; otherwise,
with teams {0,2} and {1,3}, if a position on the opposite team is empty
the occupant of fromPosition is moved there (vacating fromPosition) and
its session rebound to the new position; if both opposite-team positions
are occupied, the occupants of fromPosition and of the opposite team's
lowest-index position are exchanged and both sessions rebound; the room
then receives the full updated slot map plus a positions-changed notice
naming the two affected positions. -/
theorem claim_C8 {β : Type} (st : ServerState β) (sid : String)
    (from_position : Nat) (session : Session) (room : Room β)
    (hs : lookupA st.player_sessions sid = some session)
    (hl : lookupA st.rooms session.roomId = some room) :
    (session.position ≠ 0 →
      handle_swap_player st sid from_position =
        (st, [Ev.error "Only host can assign teams"])) ∧
    (session.position = 0 → lookupA room.players from_position = none →
      handle_swap_player st sid from_position =
        (st, [Ev.error "No player in that position"])) ∧
    (∀ mover, session.position = 0 →
      lookupA room.players from_position = some mover →
      (∀ tp, (swapTargets from_position).find?
          (fun pos => decide (pos ∉ keysA room.players)) = some tp →
        handle_swap_player st sid from_position =
          ({ st with
              rooms := upsert st.rooms session.roomId
                { room with players := eraseA (upsert room.players tp mover) from_position }
              player_sessions := updateFirstSession st.player_sessions
                session.roomId from_position tp },
           [Ev.players_changed session.roomId true
              (eraseA (upsert room.players tp mover) from_position),
            Ev.position_changed session.roomId from_position tp
              (eraseA (upsert room.players tp mover) from_position)]) ∧
        lookupA (eraseA (upsert room.players tp mover) from_position) tp =
          (if tp = from_position then none else some mover) ∧
        lookupA (eraseA (upsert room.players tp mover) from_position)
          from_position = none ∧
        (∀ gt, lookupA st.player_sessions mover.oderId =
            some { roomId := session.roomId, position := from_position,
                   gameType := gt } →
          (∀ ks ∈ st.player_sessions, ks.2.roomId = session.roomId →
            ks.2.position = from_position → ks.1 = mover.oderId) →
          lookupA (handle_swap_player st sid from_position).1.player_sessions
              mover.oderId =
            some { roomId := session.roomId, position := tp,
                   gameType := gt })) ∧
      ((swapTargets from_position).find?
          (fun pos => decide (pos ∉ keysA room.players)) = none →
        ∀ swapped, lookupA room.players ((swapTargets from_position).headD 0) =
            some swapped →
          handle_swap_player st sid from_position =
            ({ st with
                rooms := upsert st.rooms session.roomId
                  { room with players := upsert (upsert room.players ((swapTargets from_position).headD 0) mover) from_position swapped }
                player_sessions := swapSessions st.player_sessions
                  session.roomId from_position
                  ((swapTargets from_position).headD 0) },
             [Ev.players_changed session.roomId true
                (upsert (upsert room.players
                  ((swapTargets from_position).headD 0) mover)
                  from_position swapped),
              Ev.position_changed session.roomId from_position
                ((swapTargets from_position).headD 0)
                (upsert (upsert room.players
                  ((swapTargets from_position).headD 0) mover)
                  from_position swapped)]) ∧
          lookupA (upsert (upsert room.players
              ((swapTargets from_position).headD 0) mover)
              from_position swapped) from_position = some swapped ∧
          lookupA (upsert (upsert room.players
              ((swapTargets from_position).headD 0) mover)
              from_position swapped)
              ((swapTargets from_position).headD 0) = some mover ∧
          (∀ gt, lookupA st.player_sessions mover.oderId =
              some { roomId := session.roomId, position := from_position,
                     gameType := gt } →
            lookupA (handle_swap_player st sid from_position).1.player_sessions
                mover.oderId =
              some { roomId := session.roomId,
                     position := (swapTargets from_position).headD 0,
                     gameType := gt }) ∧
          (∀ gt, lookupA st.player_sessions swapped.oderId =
              some { roomId := session.roomId,
                     position := (swapTargets from_position).headD 0,
                     gameType := gt } →
            lookupA (handle_swap_player st sid from_position).1.player_sessions
                swapped.oderId =
              some { roomId := session.roomId, position := from_position,
                     gameType := gt }))) := by
  refine ⟨?_, ?_, ?_⟩
  · intro hpos
    simp only [handle_swap_player, hs]
    rw [if_pos hpos]
  · intro hpos hempty
    have hne : ¬(session.position ≠ 0) := by simp [hpos]
    simp only [handle_swap_player, hs, hl, hempty]
    rw [if_neg hne]
  · intro mover hpos hmv
    have hne : ¬(session.position ≠ 0) := by simp [hpos]
    constructor
    · intro tp hfind
      have htpfrm : tp ≠ from_position := by
        have hpred := List.find?_some
          (p := fun pos => decide (pos ∉ keysA room.players)) hfind
        have hnm : tp ∉ keysA room.players := of_decide_eq_true (by exact hpred)
        intro he
        exact hnm (he ▸ mem_keysA_of_lookupA_eq_some _ _ _ hmv)
      have hresult : handle_swap_player st sid from_position =
          ({ st with
              rooms := upsert st.rooms session.roomId
                { room with players := eraseA (upsert room.players tp mover) from_position }
              player_sessions := updateFirstSession st.player_sessions
                session.roomId from_position tp },
           [Ev.players_changed session.roomId true
              (eraseA (upsert room.players tp mover) from_position),
            Ev.position_changed session.roomId from_position tp
              (eraseA (upsert room.players tp mover) from_position)]) := by
        simp only [handle_swap_player, hs, hl, hmv, hfind]
        rw [if_neg hne]
      refine ⟨hresult, ?_, ?_, ?_⟩
      · rw [if_neg htpfrm]
        rw [lookupA_eraseA_ne _ _ _ htpfrm]
        exact lookupA_upsert_self _ _ _
      · exact lookupA_eraseA_self _ _
      · intro gt hmsess huniq
        rw [hresult]
        exact lookupA_updateFirstSession st.player_sessions session.roomId
          from_position tp mover.oderId _ hmsess ⟨rfl, rfl⟩ huniq
    · intro hfind swapped hsw
      have htpfrm : (swapTargets from_position).headD 0 ≠ from_position :=
        swapTargets_ne from_position
      have hresult : handle_swap_player st sid from_position =
          ({ st with
              rooms := upsert st.rooms session.roomId
                { room with players := upsert (upsert room.players ((swapTargets from_position).headD 0) mover) from_position swapped }
              player_sessions := swapSessions st.player_sessions
                session.roomId from_position
                ((swapTargets from_position).headD 0) },
           [Ev.players_changed session.roomId true
              (upsert (upsert room.players
                ((swapTargets from_position).headD 0) mover)
                from_position swapped),
            Ev.position_changed session.roomId from_position
              ((swapTargets from_position).headD 0)
              (upsert (upsert room.players
                ((swapTargets from_position).headD 0) mover)
                from_position swapped)]) := by
        simp only [handle_swap_player, hs, hl, hmv, hfind, hsw]
        rw [if_neg hne]
      refine ⟨hresult, ?_, ?_, ?_, ?_⟩
      · exact lookupA_upsert_self _ _ _
      · rw [lookupA_upsert_ne _ _ _ _ htpfrm]
        exact lookupA_upsert_self _ _ _
      · intro gt hmsess
        rw [hresult]
        dsimp only
        simp only [swapSessions]
        rw [lookupA_map_val st.player_sessions
          (swapSessionVal session.roomId from_position
            ((swapTargets from_position).headD 0))
          mover.oderId _ hmsess]
        simp [swapSessionVal]
      · intro gt hssess
        rw [hresult]
        dsimp only
        simp only [swapSessions]
        rw [lookupA_map_val st.player_sessions
          (swapSessionVal session.roomId from_position
            ((swapTargets from_position).headD 0))
          swapped.oderId _ hssess]
        simp [swapSessionVal, htpfrm]

def c8HostSlot : PlayerSlot :=
  { oderId := "H", name := "Host", ready := false, connected := true }

def c8Room : Room Nat :=
  { host := "H", created := 0, status := Status.waiting, playerCount := 2,
    players := [(0, c8HostSlot),
                (2, { oderId := "C", name := "Cy", ready := false,
                      connected := true })] }

def c8State : ServerState Nat :=
  { rooms := [("ROOM03", c8Room)],
    player_sessions := [("H", { roomId := "ROOM03", position := 0 }),
                        ("C", { roomId := "ROOM03", position := 2 })] }

/-- Witness for C8: the host at position 0 swaps themselves to the empty
opposite-team position 1; the slot moves and the session is rebound. -/
theorem claim_C8_witness :
    lookupA (eraseA (upsert c8Room.players 1 c8HostSlot) 0) 1 =
      some c8HostSlot ∧
    lookupA (handle_swap_player c8State "H" 0).1.player_sessions "H" =
      some { roomId := "ROOM03", position := 1 } := by
  have h := claim_C8 c8State "H" 0 { roomId := "ROOM03", position := 0 }
    c8Room (by decide) (by decide)
  have h3 := (h.2.2 c8HostSlot rfl (by decide)).1 1 (by decide)
  refine ⟨?_, ?_⟩
  · have hx := h3.2.1
    simpa using hx
  · exact h3.2.2.2 GameType.dhihaei (by decide) (by decide)

/-! ### Claim C2: confirmation-timeout recovery -/

theorem timeout_evict_lookup_pres {β : Type} (pps : List (Nat × PlayerSlot)) :
    ∀ (st : ServerState β) (rid : String) (k : String),
      lookupA st.player_sessions k = none →
      lookupA (timeout_evict st rid pps).player_sessions k = none := by
  induction pps with
  | nil => intro st rid k h; exact h
  | cons q rest ih =>
    intro st rid k h
    apply ih
    by_cases he : k = q.2.oderId
    · subst he; exact lookupA_eraseA_self _ _
    · rw [lookupA_eraseA_ne _ _ _ he]; exact h

theorem timeout_evict_lookup_none {β : Type} (pps : List (Nat × PlayerSlot)) :
    ∀ (st : ServerState β) (rid : String) (pp : Nat × PlayerSlot), pp ∈ pps →
      lookupA (timeout_evict st rid pps).player_sessions pp.2.oderId = none := by
  induction pps with
  | nil => intro st rid pp hpp; simp at hpp
  | cons q rest ih =>
    intro st rid pp hpp
    rcases List.mem_cons.mp hpp with he | hm
    · subst he
      exact timeout_evict_lookup_pres rest _ rid _ (lookupA_eraseA_self _ _)
    · exact ih _ rid pp hm

theorem timeout_requeue_lookup_pres {β : Type} (pps : List (Nat × PlayerSlot)) :
    ∀ (st : ServerState β) (rid : String) (now : Nat) (k : String),
      lookupA st.player_sessions k = none →
      lookupA (timeout_requeue st rid now pps).player_sessions k = none := by
  induction pps with
  | nil => intro st rid now k h; exact h
  | cons q rest ih =>
    intro st rid now k h
    apply ih
    by_cases he : k = q.2.oderId
    · subst he; exact lookupA_eraseA_self _ _
    · rw [lookupA_eraseA_ne _ _ _ he]; exact h

theorem timeout_requeue_lookup_none {β : Type} (pps : List (Nat × PlayerSlot)) :
    ∀ (st : ServerState β) (rid : String) (now : Nat) (pp : Nat × PlayerSlot),
      pp ∈ pps →
      lookupA (timeout_requeue st rid now pps).player_sessions pp.2.oderId
        = none := by
  induction pps with
  | nil => intro st rid now pp hpp; simp at hpp
  | cons q rest ih =>
    intro st rid now pp hpp
    rcases List.mem_cons.mp hpp with he | hm
    · subst he
      exact timeout_requeue_lookup_pres rest _ rid now _
        (lookupA_eraseA_self _ _)
    · exact ih _ rid now pp hm

theorem socketLeave_not_mem (l : List (String × String)) (sid rid : String) :
    (sid, rid) ∉ socketLeave l sid rid := by
  intro h
  have hx := List.of_mem_filter h
  simp at hx

theorem socketLeave_pres_not_mem (l : List (String × String))
    (m : String × String) (sid rid : String) (h : m ∉ l) :
    m ∉ socketLeave l sid rid :=
  fun hm => h (List.mem_of_mem_filter hm)

theorem timeout_evict_socket_pres {β : Type} (pps : List (Nat × PlayerSlot)) :
    ∀ (st : ServerState β) (rid : String) (m : String × String),
      m ∉ st.socket_memberships →
      m ∉ (timeout_evict st rid pps).socket_memberships := by
  induction pps with
  | nil => intro st rid m h; exact h
  | cons q rest ih =>
    intro st rid m h
    exact ih _ rid m (socketLeave_pres_not_mem _ m _ _ h)

theorem timeout_evict_socket_none {β : Type} (pps : List (Nat × PlayerSlot)) :
    ∀ (st : ServerState β) (rid : String) (pp : Nat × PlayerSlot), pp ∈ pps →
      (pp.2.oderId, rid) ∉ (timeout_evict st rid pps).socket_memberships := by
  induction pps with
  | nil => intro st rid pp hpp; simp at hpp
  | cons q rest ih =>
    intro st rid pp hpp
    rcases List.mem_cons.mp hpp with he | hm
    · subst he
      exact timeout_evict_socket_pres rest _ rid _
        (socketLeave_not_mem _ _ _)
    · exact ih _ rid pp hm

theorem timeout_requeue_socket_pres {β : Type} (pps : List (Nat × PlayerSlot)) :
    ∀ (st : ServerState β) (rid : String) (now : Nat) (m : String × String),
      m ∉ st.socket_memberships →
      m ∉ (timeout_requeue st rid now pps).socket_memberships := by
  induction pps with
  | nil => intro st rid now m h; exact h
  | cons q rest ih =>
    intro st rid now m h
    exact ih _ rid now m (socketLeave_pres_not_mem _ m _ _ h)

theorem timeout_requeue_socket_none {β : Type} (pps : List (Nat × PlayerSlot)) :
    ∀ (st : ServerState β) (rid : String) (now : Nat) (pp : Nat × PlayerSlot),
      pp ∈ pps →
      (pp.2.oderId, rid) ∉ (timeout_requeue st rid now pps).socket_memberships := by
  induction pps with
  | nil => intro st rid now pp hpp; simp at hpp
  | cons q rest ih =>
    intro st rid now pp hpp
    rcases List.mem_cons.mp hpp with he | hm
    · subst he
      exact timeout_requeue_socket_pres rest _ rid now _
        (socketLeave_not_mem _ _ _)
    · exact ih _ rid now pp hm

theorem timeout_evict_queue {β : Type} (pps : List (Nat × PlayerSlot)) :
    ∀ (st : ServerState β) (rid : String),
      (timeout_evict st rid pps).matchmaking_queue = st.matchmaking_queue := by
  induction pps with
  | nil => intro st rid; rfl
  | cons q rest ih => intro st rid; exact ih _ rid

theorem timeout_requeue_queue {β : Type} (pps : List (Nat × PlayerSlot)) :
    ∀ (st : ServerState β) (rid : String) (now : Nat),
      (timeout_requeue st rid now pps).matchmaking_queue =
        st.matchmaking_queue ++ pps.map
          (fun pp => { sid := pp.2.oderId, name := pp.2.name,
                       joinedAt := now }) := by
  induction pps with
  | nil => intro st rid now; exact (List.append_nil _).symm
  | cons q rest ih =>
    intro st rid now
    have hx := ih ({ st with
      player_sessions := eraseA st.player_sessions q.2.oderId
      socket_memberships := socketLeave st.socket_memberships q.2.oderId rid
      matchmaking_queue := st.matchmaking_queue ++
        [{ sid := q.2.oderId, name := q.2.name, joinedAt := now }] }) rid now
    refine hx.trans ?_
    dsimp only
    simp [List.append_assoc]

theorem timeout_evict_rooms {β : Type} (pps : List (Nat × PlayerSlot)) :
    ∀ (st : ServerState β) (rid : String),
      (timeout_evict st rid pps).rooms = st.rooms := by
  induction pps with
  | nil => intro st rid; rfl
  | cons q rest ih => intro st rid; exact ih _ rid

theorem timeout_requeue_rooms {β : Type} (pps : List (Nat × PlayerSlot)) :
    ∀ (st : ServerState β) (rid : String) (now : Nat),
      (timeout_requeue st rid now pps).rooms = st.rooms := by
  induction pps with
  | nil => intro st rid now; rfl
  | cons q rest ih => intro st rid now; exact ih _ rid now

/-- Claim C2: for every quick-match room still in `confirming` status when
its 30-second confirmation deadline fires: every player whose slot is not
confirmed is unbound from the session registry, removed from the socket
room, and individually notified (match_timeout); every confirmed player is
unbound, notified (match_cancelled), and appended at the tail of the
matchmaking queue preserving their original relative order and name with a
fresh joinedAt (the hypothesis `horder` records that the room's stored
player list is in the original dequeue order, which is how
`check_and_start_match` builds it); the room is deleted; and the handler's
result is exactly: the recovery state, followed by a queue-status
broadcast, followed by an immediate retry of match formation. -/
theorem claim_C2 {β : Type} (st : ServerState β) (room_id : String)
    (now : Nat) (retry_code : String) (retry_positions : List Nat)
    (room : Room β) (orig : List (String × String))
    (hl : lookupA st.rooms room_id = some room)
    (hstatus : room.status = Status.confirming)
    (horder : room.players.map (fun pp => (pp.2.oderId, pp.2.name)) = orig) :
    (∀ pp ∈ room.players.filter (fun pp => !pp.2.confirmed),
      lookupA (timeout_recover st room_id now room).player_sessions
          pp.2.oderId = none ∧
        (pp.2.oderId, room_id) ∉
          (timeout_recover st room_id now room).socket_memberships) ∧
    (∀ pp ∈ room.players.filter (fun pp => pp.2.confirmed),
      lookupA (timeout_recover st room_id now room).player_sessions
          pp.2.oderId = none ∧
        (pp.2.oderId, room_id) ∉
          (timeout_recover st room_id now room).socket_memberships) ∧
    ((timeout_recover st room_id now room).matchmaking_queue =
      st.matchmaking_queue ++
        (room.players.filter (fun pp => pp.2.confirmed)).map
          (fun pp => { sid := pp.2.oderId, name := pp.2.name,
                       joinedAt := now })) ∧
    (List.Sublist
      ((room.players.filter (fun pp => pp.2.confirmed)).map
        (fun pp => (pp.2.oderId, pp.2.name)))
      orig) ∧
    (lookupA (timeout_recover st room_id now room).rooms room_id = none) ∧
    (handle_confirmation_timeout st room_id now retry_code retry_positions =
      ({ (check_and_start_match (timeout_recover st room_id now room) now
            retry_code retry_positions).1 with
          match_timeouts := timeoutRemove
            (check_and_start_match (timeout_recover st room_id now room) now
              retry_code retry_positions).1.match_timeouts room_id },
       ((room.players.filter (fun pp => !pp.2.confirmed)).map
          (fun pp => Ev.match_timeout pp.2.oderId) ++
        (room.players.filter (fun pp => pp.2.confirmed)).map
          (fun pp => Ev.match_cancelled pp.2.oderId)) ++
       queue_status_events
         (timeout_recover st room_id now room).matchmaking_queue ++
       (check_and_start_match (timeout_recover st room_id now room) now
         retry_code retry_positions).2)) := by
  refine ⟨?_, ?_, ?_, ?_, ?_, ?_⟩
  · intro pp hpp
    constructor
    · exact timeout_requeue_lookup_pres _ _ room_id now _
        (timeout_evict_lookup_none _ st room_id pp hpp)
    · exact timeout_requeue_socket_pres _ _ room_id now _
        (timeout_evict_socket_none _ st room_id pp hpp)
  · intro pp hpp
    constructor
    · exact timeout_requeue_lookup_none _ _ room_id now pp hpp
    · exact timeout_requeue_socket_none _ _ room_id now pp hpp
  · have h1 := timeout_requeue_queue
      (room.players.filter (fun pp => pp.2.confirmed))
      (timeout_evict st room_id
        (room.players.filter (fun pp => !pp.2.confirmed))) room_id now
    rw [timeout_evict_queue] at h1
    exact h1
  · have hsub : List.Sublist
        ((room.players.filter (fun pp => pp.2.confirmed)).map
          (fun pp => (pp.2.oderId, pp.2.name)))
        (room.players.map (fun pp => (pp.2.oderId, pp.2.name))) :=
      List.Sublist.map _ (List.filter_sublist room.players)
    rw [horder] at hsub
    exact hsub
  · exact lookupA_eraseA_self _ _
  · simp only [handle_confirmation_timeout, hl]
    rw [if_pos hstatus]

def c2Slot (sid nm : String) (conf : Bool) : PlayerSlot :=
  { oderId := sid, name := nm, ready := conf, connected := true,
    confirmed := conf }

def c2Room : Room Nat :=
  { host := "A", created := 0, status := Status.confirming, playerCount := 4,
    isQuickMatch := true, confirmDeadline := some 30,
    players := [(2, c2Slot "A" "Alice" true), (0, c2Slot "B" "Bob" false),
                (3, c2Slot "C" "Cara" true), (1, c2Slot "D" "Dan" false)] }

def c2State : ServerState Nat :=
  { rooms := [("QMROOM", c2Room)],
    player_sessions := [("A", { roomId := "QMROOM", position := 2 }),
                        ("B", { roomId := "QMROOM", position := 0 }),
                        ("C", { roomId := "QMROOM", position := 3 }),
                        ("D", { roomId := "QMROOM", position := 1 })],
    socket_memberships := [("A", "QMROOM"), ("B", "QMROOM"),
                           ("C", "QMROOM"), ("D", "QMROOM")],
    match_timeouts := ["QMROOM"] }

/-- Witness for C2 at a concrete confirming room where Alice and Cara
confirmed but Bob and Dan did not: the confirmed pair is requeued in order
with joinedAt 30, the room is gone, and Bob is fully unbound. -/
theorem claim_C2_witness :
    ((timeout_recover c2State "QMROOM" 30 c2Room).matchmaking_queue =
      [{ sid := "A", name := "Alice", joinedAt := 30 },
       { sid := "C", name := "Cara", joinedAt := 30 }]) ∧
    (lookupA (timeout_recover c2State "QMROOM" 30 c2Room).rooms "QMROOM"
      = none) ∧
    (lookupA (timeout_recover c2State "QMROOM" 30 c2Room).player_sessions "B"
      = none) ∧
    (("B", "QMROOM") ∉
      (timeout_recover c2State "QMROOM" 30 c2Room).socket_memberships) := by
  have h := claim_C2 c2State "QMROOM" 30 "NEWRM1" [0, 1, 2, 3] c2Room
    [("A", "Alice"), ("B", "Bob"), ("C", "Cara"), ("D", "Dan")]
    (by decide) rfl (by decide)
  refine ⟨?_, h.2.2.2.2.1, ?_, ?_⟩
  · rw [h.2.2.1]
    decide
  · exact (h.1 (0, c2Slot "B" "Bob" false) (by decide)).1
  · exact (h.1 (0, c2Slot "B" "Bob" false) (by decide)).2

end Thaasbai
